import Mathlib

/-!
# Apply configuration of the `Event` type (events.k8s.io/v1beta1)

A shallow embedding of
`staging/src/k8s.io/client-go/applyconfigurations/events/v1beta1/event.go`.

Conventions of the embedding:

* a Go pointer `*T` is `Option T` (`nil` is `none`, `&v` is `some v`);
* a Go map `map[string]string` is `Option GoMap`: `none` is the nil map, `some m` an
  allocated map holding the entries `m`;
* a Go slice `[]T` is `Option (List T)`: `none` is the nil slice;
* a method with a pointer receiver `(b *EventApplyConfiguration)` is a `Method α`: it takes
  the receiver's state and either returns (`.ok ret b'`) or panics (`.error msg b'`), `b'`
  being the state of the receiver at that moment. The receiver that the Go methods return
  for chaining is that same state, so the chaining methods are `Method Unit`;
* a function that is not a method returns `Except String α`, the error being a panic;
* `int32` and `int64` values are `Int`: the file stores them and does no arithmetic;
* the field `Type` is `Type_` and the parameter `namespace` is `namespace_`, the source
  names being keywords here.
-/

namespace EventV1beta1

/-! ## Definitions -/

/-- Modelled from the spec: `metav1.Time` is declared in apimachinery. No function of the
file looks inside a value of the type; it is an instant, kept as a count of nanoseconds. -/
structure Time where
  nanos : Int
  deriving DecidableEq, Repr

/-- Modelled from the spec: `metav1.MicroTime` is declared in apimachinery. No function of
the file looks inside a value of the type; it is an instant, kept as a count of
microseconds. -/
structure MicroTime where
  micros : Int
  deriving DecidableEq, Repr

/-- Modelled from the spec: `v1.OwnerReferenceApplyConfiguration` is declared in
`applyconfigurations/meta/v1`. The file only copies values of the type. -/
structure OwnerReferenceApplyConfiguration where
  APIVersion : Option String := none
  Kind : Option String := none
  Name : Option String := none
  UID : Option String := none
  Controller : Option Bool := none
  BlockOwnerDeletion : Option Bool := none
  deriving DecidableEq, Repr

/-- Modelled from the spec: `EventSeriesApplyConfiguration` is declared in a sibling file of
the package. The file only stores references to values of the type. -/
structure EventSeriesApplyConfiguration where
  Count : Option Int := none
  LastObservedTime : Option MicroTime := none
  deriving DecidableEq, Repr

/-- Modelled from the spec: `corev1.ObjectReferenceApplyConfiguration` is declared in
`applyconfigurations/core/v1`. The file only stores references to values of the type. -/
structure ObjectReferenceApplyConfiguration where
  Kind : Option String := none
  Namespace : Option String := none
  Name : Option String := none
  UID : Option String := none
  APIVersion : Option String := none
  ResourceVersion : Option String := none
  FieldPath : Option String := none
  deriving DecidableEq, Repr

/-- Modelled from the spec: `corev1.EventSourceApplyConfiguration` is declared in
`applyconfigurations/core/v1`. The file only stores references to values of the type. -/
structure EventSourceApplyConfiguration where
  Component : Option String := none
  Host : Option String := none
  deriving DecidableEq, Repr

/-- The entries of an allocated Go `map[string]string`, as an association list. A Go map
holds each key once; `GoMap.WF` says so. -/
abbrev GoMap := List (String × String)

/-- Each key occurs once. -/
def GoMap.WF (m : GoMap) : Prop := (m.map Prod.fst).Nodup

/-- The map index expression `m[k]` with the comma-ok form: the value stored under `k`. -/
def GoMap.get : GoMap → String → Option String
  | [], _ => none
  | (k', v') :: rest, k => if k' = k then some v' else GoMap.get rest k

/-- The map assignment `m[k] = v` on an allocated map: the entry under `k` is replaced if
there is one, else a new entry is added. -/
def GoMap.set : GoMap → String → String → GoMap
  | [], k, v => [(k, v)]
  | (k', v') :: rest, k, v => if k' = k then (k, v) :: rest else (k', v') :: GoMap.set rest k v

/-- Modelled from the spec: `v1.TypeMetaApplyConfiguration` is declared in
`applyconfigurations/meta/v1`; the file assigns its fields `Kind` and `APIVersion`. -/
structure TypeMetaApplyConfiguration where
  Kind : Option String := none
  APIVersion : Option String := none
  deriving DecidableEq, Repr

/-- Modelled from the spec: `v1.ObjectMetaApplyConfiguration` is declared in
`applyconfigurations/meta/v1`; the fields are those the file's metadata mutators assign. -/
structure ObjectMetaApplyConfiguration where
  Name : Option String := none
  GenerateName : Option String := none
  Namespace : Option String := none
  UID : Option String := none
  ResourceVersion : Option String := none
  Generation : Option Int := none
  CreationTimestamp : Option Time := none
  DeletionTimestamp : Option Time := none
  DeletionGracePeriodSeconds : Option Int := none
  Labels : Option GoMap := none
  Annotations : Option GoMap := none
  OwnerReferences : Option (List OwnerReferenceApplyConfiguration) := none
  Finalizers : Option (List String) := none
  deriving DecidableEq, Repr

/-- The struct `EventApplyConfiguration`: the inlined type meta, the pointer to the metadata
sub-object, and the type-specific fields, all nil in the zero value. -/
structure EventApplyConfiguration where
  TypeMetaApplyConfiguration : TypeMetaApplyConfiguration := {}
  ObjectMetaApplyConfiguration : Option ObjectMetaApplyConfiguration := none
  EventTime : Option MicroTime := none
  Series : Option EventSeriesApplyConfiguration := none
  ReportingController : Option String := none
  ReportingInstance : Option String := none
  Action : Option String := none
  Reason : Option String := none
  Regarding : Option ObjectReferenceApplyConfiguration := none
  Related : Option ObjectReferenceApplyConfiguration := none
  Note : Option String := none
  Type_ : Option String := none
  DeprecatedSource : Option EventSourceApplyConfiguration := none
  DeprecatedFirstTimestamp : Option Time := none
  DeprecatedLastTimestamp : Option Time := none
  DeprecatedCount : Option Int := none
  deriving DecidableEq, Repr

/-- A method with receiver `b *EventApplyConfiguration`: `.ok ret b'` is a normal return
with the receiver left in state `b'`, `.error msg b'` a panic raised with the receiver in
state `b'`. -/
abbrev Method (α : Type) := EStateM String EventApplyConfiguration α

/-- The selector `b.ObjectMetaApplyConfiguration.f` read through the embedded pointer: a nil
pointer dereference panics. -/
def readMeta : Method ObjectMetaApplyConfiguration := fun b =>
  match b.ObjectMetaApplyConfiguration with
  | some m => .ok m b
  | none => .error "invalid memory address or nil pointer dereference" b

/-- An assignment `b.ObjectMetaApplyConfiguration.f = x` through the embedded pointer: a nil
pointer dereference panics. -/
def writeMeta (f : ObjectMetaApplyConfiguration → ObjectMetaApplyConfiguration) :
    Method Unit := fun b =>
  match b.ObjectMetaApplyConfiguration with
  | some m => .ok () { b with ObjectMetaApplyConfiguration := some (f m) }
  | none => .error "invalid memory address or nil pointer dereference" b

/-- Source function `ensureObjectMetaApplyConfigurationExists` (event.go, line 252): allocates the metadata sub-object if the pointer is nil. -/
def ensureObjectMetaApplyConfigurationExists : Method Unit := fun b =>
  if b.ObjectMetaApplyConfiguration = none then
    .ok () { b with ObjectMetaApplyConfiguration := some {} }
  else
    .ok () b

/-- Source function `WithKind` (event.go, line 103): sets the Kind field to the given value. -/
def WithKind (value : String) : Method Unit := fun b =>
  .ok () { b with TypeMetaApplyConfiguration := { b.TypeMetaApplyConfiguration with Kind := some value } }

/-- Source function `WithAPIVersion` (event.go, line 111): sets the APIVersion field to the given value. -/
def WithAPIVersion (value : String) : Method Unit := fun b =>
  .ok () { b with TypeMetaApplyConfiguration := { b.TypeMetaApplyConfiguration with APIVersion := some value } }

/-- Source function `WithName` (event.go, line 119): sets the Name field to the given value. -/
def WithName (value : String) : Method Unit := do
  ensureObjectMetaApplyConfigurationExists
  writeMeta fun m => { m with Name := some value }

/-- Source function `WithGenerateName` (event.go, line 128): sets the GenerateName field to the given value. -/
def WithGenerateName (value : String) : Method Unit := do
  ensureObjectMetaApplyConfigurationExists
  writeMeta fun m => { m with GenerateName := some value }

/-- Source function `WithNamespace` (event.go, line 137): sets the Namespace field to the given value. -/
def WithNamespace (value : String) : Method Unit := do
  ensureObjectMetaApplyConfigurationExists
  writeMeta fun m => { m with Namespace := some value }

/-- Source function `WithUID` (event.go, line 146): sets the UID field to the given value. -/
def WithUID (value : String) : Method Unit := do
  ensureObjectMetaApplyConfigurationExists
  writeMeta fun m => { m with UID := some value }

/-- Source function `WithResourceVersion` (event.go, line 155): sets the ResourceVersion field to the given value. -/
def WithResourceVersion (value : String) : Method Unit := do
  ensureObjectMetaApplyConfigurationExists
  writeMeta fun m => { m with ResourceVersion := some value }

/-- Source function `WithGeneration` (event.go, line 164): sets the Generation field to the given value. -/
def WithGeneration (value : Int) : Method Unit := do
  ensureObjectMetaApplyConfigurationExists
  writeMeta fun m => { m with Generation := some value }

/-- Source function `WithCreationTimestamp` (event.go, line 173): sets the CreationTimestamp field to the given value. -/
def WithCreationTimestamp (value : Time) : Method Unit := do
  ensureObjectMetaApplyConfigurationExists
  writeMeta fun m => { m with CreationTimestamp := some value }

/-- Source function `WithDeletionTimestamp` (event.go, line 182): sets the DeletionTimestamp field to the given value. -/
def WithDeletionTimestamp (value : Time) : Method Unit := do
  ensureObjectMetaApplyConfigurationExists
  writeMeta fun m => { m with DeletionTimestamp := some value }

/-- Source function `WithDeletionGracePeriodSeconds` (event.go, line 191): sets the DeletionGracePeriodSeconds field to the given value. -/
def WithDeletionGracePeriodSeconds (value : Int) : Method Unit := do
  ensureObjectMetaApplyConfigurationExists
  writeMeta fun m => { m with DeletionGracePeriodSeconds := some value }

/-- The builtin `len` on a map: 0 for the nil map. -/
def mapLen : Option GoMap → Nat
  | none => 0
  | some m => m.length

/-- The entries a `range` over a map visits, in the order it visits them: none for the nil
map. -/
def mapRange : Option GoMap → List (String × String)
  | none => []
  | some m => m

/-- The builtin `append(s, x)`: appending to the nil slice allocates. -/
def sliceAppend {α : Type} : Option (List α) → α → Option (List α)
  | none, x => some [x]
  | some l, x => some (l ++ [x])

/-- The elements of a slice: none for the nil slice. -/
def sliceElems {α : Type} : Option (List α) → List α
  | none => []
  | some l => l

/-- The statement `b.ObjectMetaApplyConfiguration.Labels[k] = v`: panics through a nil
metadata pointer and on a nil map. -/
def assignLabel (k v : String) : Method Unit := do
  let m ← readMeta
  match m.Labels with
  | some l => writeMeta fun m => { m with Labels := some (GoMap.set l k v) }
  | none => throw "assignment to entry in nil map"

/-- The loop `for k, v := range entries` of `WithLabels`, over the entries still to visit. -/
def WithLabels.loop : List (String × String) → Method Unit
  | [] => pure ()
  | (k, v) :: rest => do
    assignLabel k v
    WithLabels.loop rest

/-- Source function `WithLabels` (event.go, line 201): puts the entries into the Labels field. -/
def WithLabels (entries : Option GoMap) : Method Unit := do
  ensureObjectMetaApplyConfigurationExists
  let m ← readMeta
  if m.Labels = none ∧ mapLen entries > 0 then
    writeMeta fun m => { m with Labels := some [] }
  WithLabels.loop (mapRange entries)

/-- The statement `b.ObjectMetaApplyConfiguration.Annotations[k] = v`: panics through a nil
metadata pointer and on a nil map. -/
def assignAnnotation (k v : String) : Method Unit := do
  let m ← readMeta
  match m.Annotations with
  | some l => writeMeta fun m => { m with Annotations := some (GoMap.set l k v) }
  | none => throw "assignment to entry in nil map"

/-- The loop `for k, v := range entries` of `WithAnnotations`, over the entries still to
visit. -/
def WithAnnotations.loop : List (String × String) → Method Unit
  | [] => pure ()
  | (k, v) :: rest => do
    assignAnnotation k v
    WithAnnotations.loop rest

/-- Source function `WithAnnotations` (event.go, line 216): puts the entries into the Annotations field. -/
def WithAnnotations (entries : Option GoMap) : Method Unit := do
  ensureObjectMetaApplyConfigurationExists
  let m ← readMeta
  if m.Annotations = none ∧ mapLen entries > 0 then
    writeMeta fun m => { m with Annotations := some [] }
  WithAnnotations.loop (mapRange entries)

/-- The loop `for i := range values` of `WithOwnerReferences`, over the values still to
visit. -/
def WithOwnerReferences.loop : List (Option OwnerReferenceApplyConfiguration) → Method Unit
  | [] => pure ()
  | value :: rest => do
    match value with
    | none => throw "nil value passed to WithOwnerReferences"
    | some r =>
      let m ← readMeta
      writeMeta fun m' => { m' with OwnerReferences := sliceAppend m.OwnerReferences r }
    WithOwnerReferences.loop rest

/-- Source function `WithOwnerReferences` (event.go, line 230): appends the given values to the OwnerReferences field. -/
def WithOwnerReferences (values : List (Option OwnerReferenceApplyConfiguration)) :
    Method Unit := do
  ensureObjectMetaApplyConfigurationExists
  WithOwnerReferences.loop values

/-- The loop `for i := range values` of `WithFinalizers`, over the values still to visit. -/
def WithFinalizers.loop : List String → Method Unit
  | [] => pure ()
  | value :: rest => do
    let m ← readMeta
    writeMeta fun m' => { m' with Finalizers := sliceAppend m.Finalizers value }
    WithFinalizers.loop rest

/-- Source function `WithFinalizers` (event.go, line 244): appends the given values to the Finalizers field. -/
def WithFinalizers (values : List String) : Method Unit := do
  ensureObjectMetaApplyConfigurationExists
  WithFinalizers.loop values

/-- Source function `WithEventTime` (event.go, line 261): sets the EventTime field to the given value. -/
def WithEventTime (value : MicroTime) : Method Unit := fun b =>
  .ok () { b with EventTime := some value }

/-- Source function `WithSeries` (event.go, line 269): sets the Series field to the given value. -/
def WithSeries (value : Option EventSeriesApplyConfiguration) : Method Unit := fun b =>
  .ok () { b with Series := value }

/-- Source function `WithReportingController` (event.go, line 277): sets the ReportingController field to the given value. -/
def WithReportingController (value : String) : Method Unit := fun b =>
  .ok () { b with ReportingController := some value }

/-- Source function `WithReportingInstance` (event.go, line 285): sets the ReportingInstance field to the given value. -/
def WithReportingInstance (value : String) : Method Unit := fun b =>
  .ok () { b with ReportingInstance := some value }

/-- Source function `WithAction` (event.go, line 293): sets the Action field to the given value. -/
def WithAction (value : String) : Method Unit := fun b =>
  .ok () { b with Action := some value }

/-- Source function `WithReason` (event.go, line 301): sets the Reason field to the given value. -/
def WithReason (value : String) : Method Unit := fun b =>
  .ok () { b with Reason := some value }

/-- Source function `WithRegarding` (event.go, line 309): sets the Regarding field to the given value. -/
def WithRegarding (value : Option ObjectReferenceApplyConfiguration) : Method Unit := fun b =>
  .ok () { b with Regarding := value }

/-- Source function `WithRelated` (event.go, line 317): sets the Related field to the given value. -/
def WithRelated (value : Option ObjectReferenceApplyConfiguration) : Method Unit := fun b =>
  .ok () { b with Related := value }

/-- Source function `WithNote` (event.go, line 325): sets the Note field to the given value. -/
def WithNote (value : String) : Method Unit := fun b =>
  .ok () { b with Note := some value }

/-- Source function `WithType` (event.go, line 333): sets the Type field to the given value. -/
def WithType (value : String) : Method Unit := fun b =>
  .ok () { b with Type_ := some value }

/-- Source function `WithDeprecatedSource` (event.go, line 341): sets the DeprecatedSource field to the given value. -/
def WithDeprecatedSource (value : Option EventSourceApplyConfiguration) : Method Unit := fun b =>
  .ok () { b with DeprecatedSource := value }

/-- Source function `WithDeprecatedFirstTimestamp` (event.go, line 349): sets the DeprecatedFirstTimestamp field to the given value. -/
def WithDeprecatedFirstTimestamp (value : Time) : Method Unit := fun b =>
  .ok () { b with DeprecatedFirstTimestamp := some value }

/-- Source function `WithDeprecatedLastTimestamp` (event.go, line 357): sets the DeprecatedLastTimestamp field to the given value. -/
def WithDeprecatedLastTimestamp (value : Time) : Method Unit := fun b =>
  .ok () { b with DeprecatedLastTimestamp := some value }

/-- Source function `WithDeprecatedCount` (event.go, line 365): sets the DeprecatedCount field to the given value. -/
def WithDeprecatedCount (value : Int) : Method Unit := fun b =>
  .ok () { b with DeprecatedCount := some value }

/-- Source function `GetKind` (event.go, line 371): retrieves the value of the Kind field. -/
def GetKind : Method (Option String) := fun b =>
  .ok b.TypeMetaApplyConfiguration.Kind b

/-- Source function `GetAPIVersion` (event.go, line 376): retrieves the value of the APIVersion field. -/
def GetAPIVersion : Method (Option String) := fun b =>
  .ok b.TypeMetaApplyConfiguration.APIVersion b

/-- Source function `GetName` (event.go, line 381): retrieves the value of the Name field. -/
def GetName : Method (Option String) := do
  ensureObjectMetaApplyConfigurationExists
  let m ← readMeta
  pure m.Name

/-- Source function `GetNamespace` (event.go, line 387): retrieves the value of the Namespace field. -/
def GetNamespace : Method (Option String) := do
  ensureObjectMetaApplyConfigurationExists
  let m ← readMeta
  pure m.Namespace

/-- What a function hands back that ran chained calls on a receiver `b` it allocated and
then executes `return b`: the receiver, unless one of the calls panicked. -/
def returnReceiver (r : EStateM.Result String EventApplyConfiguration Unit) :
    Except String EventApplyConfiguration :=
  match r with
  | .ok _ b => .ok b
  | .error msg _ => .error msg

/-- Source function `Event` (event.go, line 54): constructs a builder with name, namespace, kind and API version set. -/
def Event (name namespace_ : String) : Except String EventApplyConfiguration :=
  let b : EventApplyConfiguration := {}
  returnReceiver <| (do
    WithName name
    WithNamespace namespace_
    WithKind "Event"
    WithAPIVersion "events.k8s.io/v1beta1" : Method Unit) b

namespace eventsv1beta1

/-- Modelled from the spec: the live object type `eventsv1beta1.Event` is declared in
`k8s.io/api/events/v1beta1`. Kept are its inlined type meta (`Kind`, `APIVersion`), the
`Name` and `Namespace` of its object meta, which `extractEvent` reads, and the names of
the field managers recorded in its managed fields. -/
structure Event where
  Kind : String := ""
  APIVersion : String := ""
  Name : String := ""
  Namespace : String := ""
  ManagedFields : List String := []
  deriving DecidableEq, Repr

end eventsv1beta1

/-- A Go `error` value, by its message. -/
abbrev Error := String

/-- Modelled from the spec: `managedfields.ExtractInto(object, typeDescriptor, ownerID,
targetBuilder, subresource) -> error` is the ownership engine, outside the file. A call gets
the live object, the name of the schema type, the field manager, the target builder and the
subresource; it hands back its error (nil is `none`) and the target as it left it. The
functions below take the engine as a parameter. -/
abbrev Engine :=
  eventsv1beta1.Event → String → String → EventApplyConfiguration → String →
    Option Error × EventApplyConfiguration

/-- The pair `(*EventApplyConfiguration, error)` that extraction returns. -/
abbrev Extracted := Option EventApplyConfiguration × Option Error

/-- Source function `extractEvent` (event.go, line 85): hands a fresh builder to the ownership engine; on an error it returns nil and the error, else it sets name, namespace, kind and API version and returns the builder. -/
def extractEvent (ExtractInto : Engine) (event : eventsv1beta1.Event)
    (fieldManager subresource : String) : Except String Extracted :=
  let b : EventApplyConfiguration := {}
  let (err, b) := ExtractInto event "io.k8s.api.events.v1beta1.Event" fieldManager b subresource
  if err ≠ none then
    .ok (none, err)
  else
    match (do
      WithName event.Name
      WithNamespace event.Namespace
      WithKind "Event"
      WithAPIVersion "events.k8s.io/v1beta1" : Method Unit) b with
    | .ok _ b => .ok (some b, none)
    | .error msg _ => .error msg

/-- Source function `ExtractEvent` (event.go, line 74): extracts for the main resource. -/
def ExtractEvent (ExtractInto : Engine) (event : eventsv1beta1.Event)
    (fieldManager : String) : Except String Extracted :=
  extractEvent ExtractInto event fieldManager ""

/-- Source function `ExtractEventStatus` (event.go, line 81): extracts for the status subresource. -/
def ExtractEventStatus (ExtractInto : Engine) (event : eventsv1beta1.Event)
    (fieldManager : String) : Except String Extracted :=
  extractEvent ExtractInto event fieldManager "status"

/-- A sequence of calls `b.f(a₁); …; b.f(aₙ)` of one method on one receiver. -/
def callSeq {α : Type} (f : α → Method Unit) : List α → Method Unit
  | [] => pure ()
  | a :: rest => do
    f a
    callSeq f rest

/-- The metadata sub-object as `ensureObjectMetaApplyConfigurationExists` leaves it: the one
present, or the empty one. -/
def metaOrEmpty (b : EventApplyConfiguration) : ObjectMetaApplyConfiguration :=
  match b.ObjectMetaApplyConfiguration with
  | some m => m
  | none => {}

/-- The builder with its metadata pointer set to `m`. -/
def setMeta (b : EventApplyConfiguration) (m : ObjectMetaApplyConfiguration) :
    EventApplyConfiguration :=
  { b with ObjectMetaApplyConfiguration := some m }

/-- The `OwnerReferences` slice of a builder; nil when there is no metadata sub-object. -/
def ownerReferencesOf (b : EventApplyConfiguration) :
    Option (List OwnerReferenceApplyConfiguration) :=
  match b.ObjectMetaApplyConfiguration with
  | some m => m.OwnerReferences
  | none => none

/-- The `Finalizers` slice of a builder; nil when there is no metadata sub-object. -/
def finalizersOf (b : EventApplyConfiguration) : Option (List String) :=
  match b.ObjectMetaApplyConfiguration with
  | some m => m.Finalizers
  | none => none

/-- The `Labels` map of a builder; nil when there is no metadata sub-object. -/
def labelsOf (b : EventApplyConfiguration) : Option GoMap :=
  match b.ObjectMetaApplyConfiguration with
  | some m => m.Labels
  | none => none

/-- The `Annotations` map of a builder; nil when there is no metadata sub-object. -/
def annotationsOf (b : EventApplyConfiguration) : Option GoMap :=
  match b.ObjectMetaApplyConfiguration with
  | some m => m.Annotations
  | none => none

/-- The index expression `m[k]` on a map that may be nil: a nil map holds no key. -/
def mapGet : Option GoMap → String → Option String
  | none, _ => none
  | some m, k => GoMap.get m k

/-- The referents of the entries that precede the first nil entry of an argument list. -/
def nonNilPrefix {α : Type} : List (Option α) → List α
  | [] => []
  | none :: _ => []
  | some x :: rest => x :: nonNilPrefix rest

/-- A slice after appending the values of a list one by one. -/
def sliceAppendAll {α : Type} (s : Option (List α)) (xs : List α) : Option (List α) :=
  xs.foldl sliceAppend s

/-- A map after assigning the entries of a list one by one. -/
def assignAll (m : GoMap) (entries : List (String × String)) : GoMap :=
  entries.foldl (fun acc kv => GoMap.set acc kv.1 kv.2) m

/-- The value the last of the batches `ms` that holds the key `k` gives it, if one does. -/
def lastBatchValue (ms : List (Option GoMap)) (k : String) : Option String :=
  ms.reverse.findSome? fun m => mapGet m k

/-- The method returns normally. -/
def Returns {α : Type} (r : EStateM.Result String EventApplyConfiguration α) : Prop :=
  ∃ a b, r = .ok a b

/-- The method panics with message `msg`. -/
def PanicsWith {α : Type} (msg : String)
    (r : EStateM.Result String EventApplyConfiguration α) : Prop :=
  ∃ b, r = .error msg b

/-- A sample ownership engine: it fails on an empty field manager; for a manager recorded in
the live object (main resource) it populates the target, identity fields included; for any
other manager it finds nothing and leaves the target as it is. -/
def sampleEngine : Engine := fun event _ fieldManager b subresource =>
  if fieldManager = "" then
    (some "field manager must not be empty", b)
  else if fieldManager ∈ event.ManagedFields ∧ subresource = "" then
    (none, { b with
      TypeMetaApplyConfiguration := { Kind := some "Pod", APIVersion := some "v1" }
      ObjectMetaApplyConfiguration := some { Name := some "other", Labels := some [("app", "web")] }
      Reason := some "Started" })
  else
    (none, b)

/-- The builder `extractEvent` returns when the engine left the target in state `b`. -/
def withIdentity (event : eventsv1beta1.Event) (b : EventApplyConfiguration) :
    EventApplyConfiguration :=
  { b with
    TypeMetaApplyConfiguration :=
      { Kind := some "Event", APIVersion := some "events.k8s.io/v1beta1" }
    ObjectMetaApplyConfiguration :=
      some { metaOrEmpty b with Name := some event.Name, Namespace := some event.Namespace } }

/-- A map argument holds each of its keys once; the nil map holds none. -/
def MapWF : Option GoMap → Prop
  | none => True
  | some m => GoMap.WF m

/-- The map field after a call of `WithLabels` or `WithAnnotations` with `entries`: a nil
field stays nil when there is nothing to assign, else the entries are assigned one by one to
the map, allocated first if nil. -/
def mapMerge (field entries : Option GoMap) : Option GoMap :=
  match field, mapRange entries with
  | none, [] => none
  | none, e :: es => some (assignAll [] (e :: es))
  | some l, es => some (assignAll l es)

/-- A JSON document. -/
inductive Json where
  | null
  | bool (b : Bool)
  | num (n : Int)
  | str (s : String)
  | arr (items : List Json)
  | obj (members : List (String × Json))

/-- The member of an object under a key, if the document is an object that has one. -/
def Json.member? : Json → String → Option Json
  | .obj members, k => (members.find? fun kv => kv.1 = k).map Prod.snd
  | _, _ => none

/-- The document found by following a path of keys from the root. -/
def Json.at? (j : Json) : List String → Option Json
  | [] => some j
  | k :: rest =>
    match j.member? k with
    | some j' => Json.at? j' rest
    | none => none

/-- Modelled from the spec: the marshaller is outside the file. A field tagged `omitempty`
is emitted under its key only if it is set: this is the member list it contributes. -/
def member (key : String) (value : Option Json) : List (String × Json) :=
  match value with
  | some j => [(key, j)]
  | none => []

/-- Modelled from the spec: the marshaller is outside the file. A map field tagged
`omitempty` is emitted only if it has an entry; its keys come out sorted. -/
def mapJson (m : Option GoMap) : Option Json :=
  match m with
  | none => none
  | some [] => none
  | some (e :: es) =>
    some (.obj (((e :: es).insertionSort fun x y => x.1 ≤ y.1).map fun kv => (kv.1, .str kv.2)))

/-- Modelled from the spec: the marshaller is outside the file. A slice field tagged
`omitempty` is emitted only if it has an element. -/
def sliceJson {α : Type} (render : α → Json) (s : Option (List α)) : Option Json :=
  match s with
  | none => none
  | some [] => none
  | some (x :: xs) => some (.arr ((x :: xs).map render))

/-- Modelled from the spec: how the instants are rendered is decided by the marshallers of
`metav1.Time` and `metav1.MicroTime`, outside the file; they are parameters of the
serialization. -/
structure TimeMarshalers where
  time : Time → Json
  microTime : MicroTime → Json

/-- Modelled from the spec: the document of an owner reference, by its json tags. -/
def OwnerReferenceApplyConfiguration.toJson (r : OwnerReferenceApplyConfiguration) : Json :=
  .obj (member "apiVersion" (r.APIVersion.map .str) ++ member "kind" (r.Kind.map .str) ++
    member "name" (r.Name.map .str) ++ member "uid" (r.UID.map .str) ++
    member "controller" (r.Controller.map .bool) ++
    member "blockOwnerDeletion" (r.BlockOwnerDeletion.map .bool))

/-- Modelled from the spec: the document of an event series, by its json tags. -/
def EventSeriesApplyConfiguration.toJson (tm : TimeMarshalers)
    (s : EventSeriesApplyConfiguration) : Json :=
  .obj (member "count" (s.Count.map .num) ++
    member "lastObservedTime" (s.LastObservedTime.map tm.microTime))

/-- Modelled from the spec: the document of an object reference, by its json tags. -/
def ObjectReferenceApplyConfiguration.toJson (r : ObjectReferenceApplyConfiguration) : Json :=
  .obj (member "kind" (r.Kind.map .str) ++ member "namespace" (r.Namespace.map .str) ++
    member "name" (r.Name.map .str) ++ member "uid" (r.UID.map .str) ++
    member "apiVersion" (r.APIVersion.map .str) ++
    member "resourceVersion" (r.ResourceVersion.map .str) ++
    member "fieldPath" (r.FieldPath.map .str))

/-- Modelled from the spec: the document of an event source, by its json tags. -/
def EventSourceApplyConfiguration.toJson (s : EventSourceApplyConfiguration) : Json :=
  .obj (member "component" (s.Component.map .str) ++ member "host" (s.Host.map .str))

/-- Modelled from the spec: the document of the metadata sub-object, with the keys the spec
lists for it; every field is emitted only if set. -/
def ObjectMetaApplyConfiguration.toJson (tm : TimeMarshalers)
    (m : ObjectMetaApplyConfiguration) : Json :=
  .obj (member "name" (m.Name.map .str) ++ member "generateName" (m.GenerateName.map .str) ++
    member "namespace" (m.Namespace.map .str) ++ member "uid" (m.UID.map .str) ++
    member "resourceVersion" (m.ResourceVersion.map .str) ++
    member "generation" (m.Generation.map .num) ++
    member "creationTimestamp" (m.CreationTimestamp.map tm.time) ++
    member "deletionTimestamp" (m.DeletionTimestamp.map tm.time) ++
    member "deletionGracePeriodSeconds" (m.DeletionGracePeriodSeconds.map .num) ++
    member "labels" (mapJson m.Labels) ++ member "annotations" (mapJson m.Annotations) ++
    member "ownerReferences"
      (sliceJson OwnerReferenceApplyConfiguration.toJson m.OwnerReferences) ++
    member "finalizers" (sliceJson .str m.Finalizers))

/-- Modelled from the spec: the marshaller is outside the file. The serialized document of
a builder, by the json tags of `EventApplyConfiguration`: the type meta inline, the metadata
sub-object under `metadata`, each type-specific field under its key, every one of them
`omitempty` on a pointer, so emitted only if set. -/
def serialize (tm : TimeMarshalers) (b : EventApplyConfiguration) : Json :=
  .obj (member "kind" (b.TypeMetaApplyConfiguration.Kind.map .str) ++
    member "apiVersion" (b.TypeMetaApplyConfiguration.APIVersion.map .str) ++
    member "metadata" (b.ObjectMetaApplyConfiguration.map (ObjectMetaApplyConfiguration.toJson tm)) ++
    member "eventTime" (b.EventTime.map tm.microTime) ++
    member "series" (b.Series.map (EventSeriesApplyConfiguration.toJson tm)) ++
    member "reportingController" (b.ReportingController.map .str) ++
    member "reportingInstance" (b.ReportingInstance.map .str) ++
    member "action" (b.Action.map .str) ++
    member "reason" (b.Reason.map .str) ++
    member "regarding" (b.Regarding.map ObjectReferenceApplyConfiguration.toJson) ++
    member "related" (b.Related.map ObjectReferenceApplyConfiguration.toJson) ++
    member "note" (b.Note.map .str) ++
    member "type" (b.Type_.map .str) ++
    member "deprecatedSource" (b.DeprecatedSource.map EventSourceApplyConfiguration.toJson) ++
    member "deprecatedFirstTimestamp" (b.DeprecatedFirstTimestamp.map tm.time) ++
    member "deprecatedLastTimestamp" (b.DeprecatedLastTimestamp.map tm.time) ++
    member "deprecatedCount" (b.DeprecatedCount.map .num))

/-- The first member under `k` of a member list. -/
def findMember (members : List (String × Json)) (k : String) : Option Json :=
  (members.find? fun kv => kv.1 = k).map Prod.snd

/-- The builder after the lazy creation of the metadata sub-object: an absent sub-object
becomes an empty one, an existing one is kept. -/
def withMetaEnsured (b : EventApplyConfiguration) : EventApplyConfiguration :=
  match b.ObjectMetaApplyConfiguration with
  | some _ => b
  | none => { b with ObjectMetaApplyConfiguration := some {} }

/-- The fields of a builder that the mutators target, one per mutator. -/
inductive TargetField where
  | kind
  | apiVersion
  | name
  | generateName
  | namespace_
  | uid
  | resourceVersion
  | generation
  | creationTimestamp
  | deletionTimestamp
  | deletionGracePeriodSeconds
  | labels
  | annotations
  | ownerReferences
  | finalizers
  | eventTime
  | series
  | reportingController
  | reportingInstance
  | action
  | reason
  | regarding
  | related
  | note
  | type_
  | deprecatedSource
  | deprecatedFirstTimestamp
  | deprecatedLastTimestamp
  | deprecatedCount
  deriving DecidableEq, Repr

/-- A call of one of the mutators of the builder, with its argument. -/
inductive Call where
  | kind (value : String)
  | apiVersion (value : String)
  | name (value : String)
  | generateName (value : String)
  | namespace_ (value : String)
  | uid (value : String)
  | resourceVersion (value : String)
  | generation (value : Int)
  | creationTimestamp (value : Time)
  | deletionTimestamp (value : Time)
  | deletionGracePeriodSeconds (value : Int)
  | labels (value : Option GoMap)
  | annotations (value : Option GoMap)
  | ownerReferences (value : List (Option OwnerReferenceApplyConfiguration))
  | finalizers (value : List String)
  | eventTime (value : MicroTime)
  | series (value : Option EventSeriesApplyConfiguration)
  | reportingController (value : String)
  | reportingInstance (value : String)
  | action (value : String)
  | reason (value : String)
  | regarding (value : Option ObjectReferenceApplyConfiguration)
  | related (value : Option ObjectReferenceApplyConfiguration)
  | note (value : String)
  | type_ (value : String)
  | deprecatedSource (value : Option EventSourceApplyConfiguration)
  | deprecatedFirstTimestamp (value : Time)
  | deprecatedLastTimestamp (value : Time)
  | deprecatedCount (value : Int)

/-- The mutator call that a `Call` stands for. -/
def Call.run : Call → Method Unit
  | .kind value => EventV1beta1.WithKind value
  | .apiVersion value => EventV1beta1.WithAPIVersion value
  | .name value => EventV1beta1.WithName value
  | .generateName value => EventV1beta1.WithGenerateName value
  | .namespace_ value => EventV1beta1.WithNamespace value
  | .uid value => EventV1beta1.WithUID value
  | .resourceVersion value => EventV1beta1.WithResourceVersion value
  | .generation value => EventV1beta1.WithGeneration value
  | .creationTimestamp value => EventV1beta1.WithCreationTimestamp value
  | .deletionTimestamp value => EventV1beta1.WithDeletionTimestamp value
  | .deletionGracePeriodSeconds value => EventV1beta1.WithDeletionGracePeriodSeconds value
  | .labels value => EventV1beta1.WithLabels value
  | .annotations value => EventV1beta1.WithAnnotations value
  | .ownerReferences value => EventV1beta1.WithOwnerReferences value
  | .finalizers value => EventV1beta1.WithFinalizers value
  | .eventTime value => EventV1beta1.WithEventTime value
  | .series value => EventV1beta1.WithSeries value
  | .reportingController value => EventV1beta1.WithReportingController value
  | .reportingInstance value => EventV1beta1.WithReportingInstance value
  | .action value => EventV1beta1.WithAction value
  | .reason value => EventV1beta1.WithReason value
  | .regarding value => EventV1beta1.WithRegarding value
  | .related value => EventV1beta1.WithRelated value
  | .note value => EventV1beta1.WithNote value
  | .type_ value => EventV1beta1.WithType value
  | .deprecatedSource value => EventV1beta1.WithDeprecatedSource value
  | .deprecatedFirstTimestamp value => EventV1beta1.WithDeprecatedFirstTimestamp value
  | .deprecatedLastTimestamp value => EventV1beta1.WithDeprecatedLastTimestamp value
  | .deprecatedCount value => EventV1beta1.WithDeprecatedCount value

/-- The field that a mutator call targets. -/
def Call.field : Call → TargetField
  | .kind _ => .kind
  | .apiVersion _ => .apiVersion
  | .name _ => .name
  | .generateName _ => .generateName
  | .namespace_ _ => .namespace_
  | .uid _ => .uid
  | .resourceVersion _ => .resourceVersion
  | .generation _ => .generation
  | .creationTimestamp _ => .creationTimestamp
  | .deletionTimestamp _ => .deletionTimestamp
  | .deletionGracePeriodSeconds _ => .deletionGracePeriodSeconds
  | .labels _ => .labels
  | .annotations _ => .annotations
  | .ownerReferences _ => .ownerReferences
  | .finalizers _ => .finalizers
  | .eventTime _ => .eventTime
  | .series _ => .series
  | .reportingController _ => .reportingController
  | .reportingInstance _ => .reportingInstance
  | .action _ => .action
  | .reason _ => .reason
  | .regarding _ => .regarding
  | .related _ => .related
  | .note _ => .note
  | .type_ _ => .type_
  | .deprecatedSource _ => .deprecatedSource
  | .deprecatedFirstTimestamp _ => .deprecatedFirstTimestamp
  | .deprecatedLastTimestamp _ => .deprecatedLastTimestamp
  | .deprecatedCount _ => .deprecatedCount

/-- The call passes no nil reference: only `WithOwnerReferences` can pass one. -/
def Call.NilFree : Call → Prop
  | .ownerReferences values => none ∉ values
  | _ => True

/-- The state of the receiver when a mutator call ends, by a return or by the panic on a nil
owner reference. -/
def Call.effect : Call → EventApplyConfiguration → EventApplyConfiguration
  | .kind value, b => { b with TypeMetaApplyConfiguration := { b.TypeMetaApplyConfiguration with Kind := some value } }
  | .apiVersion value, b => { b with TypeMetaApplyConfiguration := { b.TypeMetaApplyConfiguration with APIVersion := some value } }
  | .name value, b => setMeta b { metaOrEmpty b with Name := some value }
  | .generateName value, b => setMeta b { metaOrEmpty b with GenerateName := some value }
  | .namespace_ value, b => setMeta b { metaOrEmpty b with Namespace := some value }
  | .uid value, b => setMeta b { metaOrEmpty b with UID := some value }
  | .resourceVersion value, b => setMeta b { metaOrEmpty b with ResourceVersion := some value }
  | .generation value, b => setMeta b { metaOrEmpty b with Generation := some value }
  | .creationTimestamp value, b => setMeta b { metaOrEmpty b with CreationTimestamp := some value }
  | .deletionTimestamp value, b => setMeta b { metaOrEmpty b with DeletionTimestamp := some value }
  | .deletionGracePeriodSeconds value, b => setMeta b { metaOrEmpty b with DeletionGracePeriodSeconds := some value }
  | .labels value, b => setMeta b { metaOrEmpty b with Labels := mapMerge (metaOrEmpty b).Labels value }
  | .annotations value, b => setMeta b { metaOrEmpty b with Annotations := mapMerge (metaOrEmpty b).Annotations value }
  | .ownerReferences value, b => setMeta b { metaOrEmpty b with OwnerReferences := sliceAppendAll (metaOrEmpty b).OwnerReferences (nonNilPrefix value) }
  | .finalizers value, b => setMeta b { metaOrEmpty b with Finalizers := sliceAppendAll (metaOrEmpty b).Finalizers value }
  | .eventTime value, b => { b with EventTime := some value }
  | .series value, b => { b with Series := value }
  | .reportingController value, b => { b with ReportingController := some value }
  | .reportingInstance value, b => { b with ReportingInstance := some value }
  | .action value, b => { b with Action := some value }
  | .reason value, b => { b with Reason := some value }
  | .regarding value, b => { b with Regarding := value }
  | .related value, b => { b with Related := value }
  | .note value, b => { b with Note := some value }
  | .type_ value, b => { b with Type_ := some value }
  | .deprecatedSource value, b => { b with DeprecatedSource := value }
  | .deprecatedFirstTimestamp value, b => { b with DeprecatedFirstTimestamp := some value }
  | .deprecatedLastTimestamp value, b => { b with DeprecatedLastTimestamp := some value }
  | .deprecatedCount value, b => { b with DeprecatedCount := some value }

/-! ## Theorems -/

theorem bind_run {α β : Type} (x : Method α) (f : α → Method β) (b : EventApplyConfiguration) :
    (x >>= f) b = match x b with
      | .ok a b' => f a b'
      | .error e b' => .error e b' := by
  show EStateM.bind x f b = _
  unfold EStateM.bind
  cases x b <;> rfl

theorem pure_run {α : Type} (a : α) (b : EventApplyConfiguration) :
    (pure a : Method α) b = .ok a b := rfl

theorem throw_run {α : Type} (e : String) (b : EventApplyConfiguration) :
    (throw e : Method α) b = .error e b := rfl

theorem setMeta_meta (b : EventApplyConfiguration) (m : ObjectMetaApplyConfiguration) :
    (setMeta b m).ObjectMetaApplyConfiguration = some m := rfl

theorem setMeta_setMeta (b : EventApplyConfiguration) (m m' : ObjectMetaApplyConfiguration) :
    setMeta (setMeta b m) m' = setMeta b m' := rfl

theorem metaOrEmpty_setMeta (b : EventApplyConfiguration) (m : ObjectMetaApplyConfiguration) :
    metaOrEmpty (setMeta b m) = m := rfl

theorem setMeta_self (b : EventApplyConfiguration) (m : ObjectMetaApplyConfiguration)
    (h : b.ObjectMetaApplyConfiguration = some m) : setMeta b m = b := by
  cases b; simp_all [setMeta]

theorem metaOrEmpty_of_some (b : EventApplyConfiguration) (m : ObjectMetaApplyConfiguration)
    (h : b.ObjectMetaApplyConfiguration = some m) : metaOrEmpty b = m := by
  simp [metaOrEmpty, h]

theorem ensure_run (b : EventApplyConfiguration) :
    ensureObjectMetaApplyConfigurationExists b = .ok () (setMeta b (metaOrEmpty b)) := by
  unfold ensureObjectMetaApplyConfigurationExists
  cases h : b.ObjectMetaApplyConfiguration with
  | none => simp [setMeta, metaOrEmpty, h]
  | some m => simp [setMeta_self b m h, metaOrEmpty_of_some b m h]

theorem readMeta_setMeta (b : EventApplyConfiguration) (m : ObjectMetaApplyConfiguration) :
    readMeta (setMeta b m) = .ok m (setMeta b m) := rfl

theorem writeMeta_setMeta (f : ObjectMetaApplyConfiguration → ObjectMetaApplyConfiguration)
    (b : EventApplyConfiguration) (m : ObjectMetaApplyConfiguration) :
    writeMeta f (setMeta b m) = .ok () (setMeta b (f m)) := rfl

/-- A metadata mutator that ensures the sub-object and then assigns through it. -/
theorem ensure_write_run (f : ObjectMetaApplyConfiguration → ObjectMetaApplyConfiguration)
    (b : EventApplyConfiguration) :
    (ensureObjectMetaApplyConfigurationExists >>= fun _ => writeMeta f) b =
      .ok () (setMeta b (f (metaOrEmpty b))) := by
  rw [bind_run, ensure_run]
  exact writeMeta_setMeta f b _

theorem WithName_run (v : String) (b : EventApplyConfiguration) :
    WithName v b = .ok () (setMeta b { metaOrEmpty b with Name := some v }) :=
  ensure_write_run _ b

theorem WithNamespace_run (v : String) (b : EventApplyConfiguration) :
    WithNamespace v b = .ok () (setMeta b { metaOrEmpty b with Namespace := some v }) :=
  ensure_write_run _ b

theorem sliceElems_sliceAppendAll {α : Type} (s : Option (List α)) (xs : List α) :
    sliceElems (sliceAppendAll s xs) = sliceElems s ++ xs := by
  induction xs generalizing s with
  | nil => simp [sliceAppendAll]
  | cons x rest ih =>
    have h : sliceAppendAll s (x :: rest) = sliceAppendAll (sliceAppend s x) rest := rfl
    rw [h, ih]
    cases s <;> simp [sliceAppend, sliceElems]

theorem sliceAppendAll_nil {α : Type} (s : Option (List α)) : sliceAppendAll s [] = s := rfl

theorem sliceAppendAll_cons {α : Type} (s : Option (List α)) (x : α) (xs : List α) :
    sliceAppendAll s (x :: xs) = sliceAppendAll (sliceAppend s x) xs := rfl

/-- The outcome of the loop of `WithOwnerReferences` on a receiver whose metadata exists. -/
theorem WithOwnerReferences_loop_run (values : List (Option OwnerReferenceApplyConfiguration))
    (b : EventApplyConfiguration) (m : ObjectMetaApplyConfiguration) :
    WithOwnerReferences.loop values (setMeta b m) =
      if none ∈ values then
        .error "nil value passed to WithOwnerReferences" (setMeta b
          { m with OwnerReferences := sliceAppendAll m.OwnerReferences (nonNilPrefix values) })
      else
        .ok () (setMeta b
          { m with OwnerReferences := sliceAppendAll m.OwnerReferences (nonNilPrefix values) }) := by
  induction values generalizing m with
  | nil => simp [WithOwnerReferences.loop, pure_run, nonNilPrefix, sliceAppendAll_nil]
  | cons value rest ih =>
    cases value with
    | none =>
      simp [WithOwnerReferences.loop, bind_run, throw_run, nonNilPrefix, sliceAppendAll_nil]
    | some r =>
      simp only [WithOwnerReferences.loop, bind_run, readMeta_setMeta, writeMeta_setMeta, ih,
        nonNilPrefix, sliceAppendAll_cons]
      simp

theorem WithOwnerReferences_run (values : List (Option OwnerReferenceApplyConfiguration))
    (b : EventApplyConfiguration) :
    WithOwnerReferences values b =
      if none ∈ values then
        .error "nil value passed to WithOwnerReferences" (setMeta b
          { metaOrEmpty b with
            OwnerReferences := sliceAppendAll (metaOrEmpty b).OwnerReferences (nonNilPrefix values) })
      else
        .ok () (setMeta b
          { metaOrEmpty b with
            OwnerReferences := sliceAppendAll (metaOrEmpty b).OwnerReferences (nonNilPrefix values) }) := by
  show (ensureObjectMetaApplyConfigurationExists >>= fun _ => WithOwnerReferences.loop values) b = _
  rw [bind_run, ensure_run]
  exact WithOwnerReferences_loop_run values b _

theorem WithFinalizers_loop_run (values : List String)
    (b : EventApplyConfiguration) (m : ObjectMetaApplyConfiguration) :
    WithFinalizers.loop values (setMeta b m) =
      .ok () (setMeta b { m with Finalizers := sliceAppendAll m.Finalizers values }) := by
  induction values generalizing m with
  | nil => simp [WithFinalizers.loop, pure_run, sliceAppendAll_nil]
  | cons value rest ih =>
    simp only [WithFinalizers.loop, bind_run, readMeta_setMeta, writeMeta_setMeta, ih,
      sliceAppendAll_cons]

theorem WithFinalizers_run (values : List String) (b : EventApplyConfiguration) :
    WithFinalizers values b =
      .ok () (setMeta b
        { metaOrEmpty b with Finalizers := sliceAppendAll (metaOrEmpty b).Finalizers values }) := by
  show (ensureObjectMetaApplyConfigurationExists >>= fun _ => WithFinalizers.loop values) b = _
  rw [bind_run, ensure_run]
  exact WithFinalizers_loop_run values b _

theorem ownerReferencesOf_eq (b : EventApplyConfiguration) :
    ownerReferencesOf b = (metaOrEmpty b).OwnerReferences := by
  unfold ownerReferencesOf metaOrEmpty
  cases b.ObjectMetaApplyConfiguration <;> rfl

theorem finalizersOf_eq (b : EventApplyConfiguration) :
    finalizersOf b = (metaOrEmpty b).Finalizers := by
  unfold finalizersOf metaOrEmpty
  cases b.ObjectMetaApplyConfiguration <;> rfl

theorem nonNilPrefix_of_not_mem {α : Type} (values : List (Option α)) (h : none ∉ values) :
    nonNilPrefix values = values.filterMap id := by
  induction values with
  | nil => rfl
  | cons v rest ih =>
    cases v with
    | none => simp at h
    | some x =>
      have h' : none ∉ rest := fun hm => h (List.mem_cons_of_mem _ hm)
      simp [nonNilPrefix, ih h']

theorem extractEvent_run (E : Engine) (event : eventsv1beta1.Event)
    (fieldManager subresource : String) :
    extractEvent E event fieldManager subresource =
      match E event "io.k8s.api.events.v1beta1.Event" fieldManager {} subresource with
      | (some e, _) => .ok (none, some e)
      | (none, b) => .ok (some (withIdentity event b), none) := by
  unfold extractEvent
  rcases h : E event "io.k8s.api.events.v1beta1.Event" fieldManager {} subresource with ⟨err, b⟩
  cases err with
  | some e => simp [h]
  | none =>
    simp [h, bind_run, WithName_run, WithNamespace_run, WithKind, WithAPIVersion, setMeta,
      metaOrEmpty, withIdentity]

/-- C1. For every name and namespace, `Event(name, namespace)` returns a builder whose Kind is
"Event", whose APIVersion is "events.k8s.io/v1beta1", whose metadata sub-object exists with
Name and Namespace set to the arguments, and in which every other metadata field and every
type-specific field is unset. -/
theorem Event_constructs (name namespace_ : String) :
    Event name namespace_ = .ok
      { TypeMetaApplyConfiguration :=
          { Kind := some "Event", APIVersion := some "events.k8s.io/v1beta1" }
        ObjectMetaApplyConfiguration :=
          some
            { Name := some name, GenerateName := none, Namespace := some namespace_, UID := none,
              ResourceVersion := none, Generation := none, CreationTimestamp := none,
              DeletionTimestamp := none, DeletionGracePeriodSeconds := none, Labels := none,
              Annotations := none, OwnerReferences := none, Finalizers := none }
        EventTime := none, Series := none, ReportingController := none,
        ReportingInstance := none, Action := none, Reason := none, Regarding := none,
        Related := none, Note := none, Type_ := none, DeprecatedSource := none,
        DeprecatedFirstTimestamp := none, DeprecatedLastTimestamp := none,
        DeprecatedCount := none } := by
  simp [Event, returnReceiver, bind_run, WithName_run, WithNamespace_run, WithKind,
    WithAPIVersion, setMeta, metaOrEmpty]

/-- C2, as stated, fails: `WithOwnerReferences(a, nil)` on the zero builder panics with `a`
already appended, so the list at the moment of the fault is not what it was before. -/
theorem WithOwnerReferences_fault_not_atomic :
    WithOwnerReferences [some { Name := some "a" }, none] {} =
      .error "nil value passed to WithOwnerReferences"
        { ObjectMetaApplyConfiguration :=
            some { OwnerReferences := some [{ Name := some "a" }] } } ∧
    ownerReferencesOf
        { ObjectMetaApplyConfiguration :=
            some { OwnerReferences := some [{ Name := some "a" }] } } ≠
      ownerReferencesOf {} := by
  constructor
  · rfl
  · decide

/-- C2, amended. For every builder and every argument list holding a nil entry,
`WithOwnerReferences` panics; at the moment of the fault the OwnerReferences list is the list
as it was before the call followed by the referents of the entries that precede the first nil
entry, in argument order; it is exactly what it was before the call when the first entry is
nil. -/
theorem WithOwnerReferences_fault_state (b : EventApplyConfiguration)
    (values : List (Option OwnerReferenceApplyConfiguration)) (h : none ∈ values) :
    ∃ b', WithOwnerReferences values b =
        .error "nil value passed to WithOwnerReferences" b' ∧
      sliceElems (ownerReferencesOf b') =
        sliceElems (ownerReferencesOf b) ++ nonNilPrefix values ∧
      (values.head? = some none → ownerReferencesOf b' = ownerReferencesOf b) := by
  refine ⟨_, by rw [WithOwnerReferences_run, if_pos h], ?_, ?_⟩
  · simp [ownerReferencesOf_eq, metaOrEmpty_setMeta, sliceElems_sliceAppendAll]
  · intro hh
    cases values with
    | nil => simp at hh
    | cons v rest =>
      simp at hh
      subst hh
      simp [ownerReferencesOf_eq, metaOrEmpty_setMeta, nonNilPrefix, sliceAppendAll_nil]

theorem WithOwnerReferences_fault_state_witness :
    none ∈ [some ({ Name := some "a" } : OwnerReferenceApplyConfiguration), none] ∧
    ∃ b', WithOwnerReferences [some { Name := some "a" }, none] {} =
        .error "nil value passed to WithOwnerReferences" b' ∧
      sliceElems (ownerReferencesOf b') =
        sliceElems (ownerReferencesOf {}) ++ nonNilPrefix [some { Name := some "a" }, none] ∧
      (([some { Name := some "a" }, none] :
          List (Option OwnerReferenceApplyConfiguration)).head? = some none →
        ownerReferencesOf b' = ownerReferencesOf {}) :=
  ⟨by decide, WithOwnerReferences_fault_state {} [some { Name := some "a" }, none] (by decide)⟩

/-- C3. `WithOwnerReferences(values...)` panics if and only if at least one entry of
`values` is nil, and then with the message "nil value passed to WithOwnerReferences"; it
returns normally if and only if no entry is nil, the empty argument list included. -/
theorem WithOwnerReferences_panics_iff (b : EventApplyConfiguration)
    (values : List (Option OwnerReferenceApplyConfiguration)) :
    ((∃ msg, PanicsWith msg (WithOwnerReferences values b)) ↔ none ∈ values) ∧
    (PanicsWith "nil value passed to WithOwnerReferences" (WithOwnerReferences values b) ↔
      none ∈ values) ∧
    (Returns (WithOwnerReferences values b) ↔ none ∉ values) ∧
    Returns (WithOwnerReferences [] b) := by
  by_cases h : none ∈ values
  · have hr := WithOwnerReferences_run values b
    rw [if_pos h] at hr
    refine ⟨⟨fun _ => h, fun _ => ⟨_, _, hr⟩⟩, ⟨fun _ => h, fun _ => ⟨_, hr⟩⟩,
      ⟨fun hret => ?_, fun hn => absurd h hn⟩, ⟨(), _, by rw [WithOwnerReferences_run, if_neg (List.not_mem_nil _)]⟩⟩
    obtain ⟨a, b', hb⟩ := hret
    rw [hr] at hb
    cases hb
  · have hr := WithOwnerReferences_run values b
    rw [if_neg h] at hr
    refine ⟨⟨fun hp => ?_, fun hm => absurd hm h⟩, ⟨fun hp => ?_, fun hm => absurd hm h⟩,
      ⟨fun _ => h, fun _ => ⟨(), _, hr⟩⟩, ⟨(), _, by rw [WithOwnerReferences_run, if_neg (List.not_mem_nil _)]⟩⟩
    · obtain ⟨msg, b', hb⟩ := hp
      rw [hr] at hb
      cases hb
    · obtain ⟨b', hb⟩ := hp
      rw [hr] at hb
      cases hb

/-- C4, as stated, fails: an Event read through the typed client carries an empty type meta;
extraction for a manager that owns fields returns a builder whose Kind and APIVersion are the
constants of the type, not the kind and apiVersion values of the live object. -/
theorem extractEvent_kind_not_from_live_object :
    extractEvent sampleEngine
        { Kind := "", APIVersion := "", Name := "my-event", Namespace := "default",
          ManagedFields := ["kubectl"] } "kubectl" "" =
      .ok (some
        { TypeMetaApplyConfiguration :=
            { Kind := some "Event", APIVersion := some "events.k8s.io/v1beta1" }
          ObjectMetaApplyConfiguration :=
            some { Name := some "my-event", Namespace := some "default",
                   Labels := some [("app", "web")] }
          Reason := some "Started" }, none) ∧
    (some "Event" : Option String) ≠
      some (eventsv1beta1.Event.Kind
        { Kind := "", APIVersion := "", Name := "my-event", Namespace := "default",
          ManagedFields := ["kubectl"] }) ∧
    (some "events.k8s.io/v1beta1" : Option String) ≠
      some (eventsv1beta1.Event.APIVersion
        { Kind := "", APIVersion := "", Name := "my-event", Namespace := "default",
          ManagedFields := ["kubectl"] }) := by
  refine ⟨?_, by decide, by decide⟩
  rw [extractEvent_run]
  simp [sampleEngine, withIdentity, metaOrEmpty]

/-- C4, amended. For every live Event object, field manager and subresource for which the
ownership engine reports no error, `extractEvent` (hence `ExtractEvent` and
`ExtractEventStatus`) returns a builder whose Kind is the constant "Event" and whose
APIVersion is the constant "events.k8s.io/v1beta1", and whose Name and Namespace are the
name and namespace of the live object, whatever the engine wrote into those fields. -/
theorem extractEvent_identity (E : Engine) (event : eventsv1beta1.Event)
    (fieldManager subresource : String)
    (h : (E event "io.k8s.api.events.v1beta1.Event" fieldManager {} subresource).1 = none) :
    ∃ b m, extractEvent E event fieldManager subresource = .ok (some b, none) ∧
      b.TypeMetaApplyConfiguration.Kind = some "Event" ∧
      b.TypeMetaApplyConfiguration.APIVersion = some "events.k8s.io/v1beta1" ∧
      b.ObjectMetaApplyConfiguration = some m ∧
      m.Name = some event.Name ∧ m.Namespace = some event.Namespace := by
  rcases hE : E event "io.k8s.api.events.v1beta1.Event" fieldManager {} subresource with ⟨err, b⟩
  rw [hE] at h
  simp only at h
  subst h
  refine ⟨withIdentity event b, _, ?_, rfl, rfl, rfl, rfl, rfl⟩
  rw [extractEvent_run, hE]

theorem extractEvent_identity_witness :
    (sampleEngine { Name := "my-event", Namespace := "default", ManagedFields := ["kubectl"] }
      "io.k8s.api.events.v1beta1.Event" "kubectl" {} "").1 = none ∧
    ∃ b m, extractEvent sampleEngine
        { Name := "my-event", Namespace := "default", ManagedFields := ["kubectl"] }
        "kubectl" "" = .ok (some b, none) ∧
      b.TypeMetaApplyConfiguration.Kind = some "Event" ∧
      b.TypeMetaApplyConfiguration.APIVersion = some "events.k8s.io/v1beta1" ∧
      b.ObjectMetaApplyConfiguration = some m ∧
      m.Name = some (eventsv1beta1.Event.Name
        { Name := "my-event", Namespace := "default", ManagedFields := ["kubectl"] }) ∧
      m.Namespace = some (eventsv1beta1.Event.Namespace
        { Name := "my-event", Namespace := "default", ManagedFields := ["kubectl"] }) :=
  ⟨by decide, extractEvent_identity sampleEngine
    { Name := "my-event", Namespace := "default", ManagedFields := ["kubectl"] }
    "kubectl" "" (by decide)⟩

/-- C5. For every live Event object and field manager for which the ownership engine finds
no managed fields (it reports no error and leaves the target builder untouched),
`ExtractEvent` returns, with a nil error, a builder in which only Kind, APIVersion, Name and
Namespace are populated; it is the builder that `Event(event.Name, event.Namespace)`
produces. -/
theorem ExtractEvent_no_managed_fields (E : Engine) (event : eventsv1beta1.Event)
    (fieldManager : String)
    (h : E event "io.k8s.api.events.v1beta1.Event" fieldManager {} "" = (none, {})) :
    ExtractEvent E event fieldManager = .ok (some
      { TypeMetaApplyConfiguration :=
          { Kind := some "Event", APIVersion := some "events.k8s.io/v1beta1" }
        ObjectMetaApplyConfiguration :=
          some { Name := some event.Name, Namespace := some event.Namespace } }, none) ∧
    Event event.Name event.Namespace = .ok
      { TypeMetaApplyConfiguration :=
          { Kind := some "Event", APIVersion := some "events.k8s.io/v1beta1" }
        ObjectMetaApplyConfiguration :=
          some { Name := some event.Name, Namespace := some event.Namespace } } := by
  constructor
  · unfold ExtractEvent
    rw [extractEvent_run, h]
    simp [withIdentity, metaOrEmpty]
  · simp [Event, returnReceiver, bind_run, WithName_run, WithNamespace_run, WithKind,
      WithAPIVersion, setMeta, metaOrEmpty]

theorem ExtractEvent_no_managed_fields_witness :
    sampleEngine { Name := "my-event", Namespace := "default", ManagedFields := ["kubectl"] }
      "io.k8s.api.events.v1beta1.Event" "stranger" {} "" = (none, {}) ∧
    ExtractEvent sampleEngine
        { Name := "my-event", Namespace := "default", ManagedFields := ["kubectl"] }
        "stranger" = .ok (some
      { TypeMetaApplyConfiguration :=
          { Kind := some "Event", APIVersion := some "events.k8s.io/v1beta1" }
        ObjectMetaApplyConfiguration :=
          some { Name := some "my-event", Namespace := some "default" } }, none) :=
  ⟨by decide, (ExtractEvent_no_managed_fields sampleEngine
    { Name := "my-event", Namespace := "default", ManagedFields := ["kubectl"] }
    "stranger" (by decide)).1⟩

/-- C6. Extraction is all-or-nothing: whenever the ownership engine returns an error,
`extractEvent` returns that same error together with a nil builder; whenever the engine
returns no error, `extractEvent` returns a non-nil builder and a nil error. -/
theorem extractEvent_all_or_nothing (E : Engine) (event : eventsv1beta1.Event)
    (fieldManager subresource : String) :
    (∀ e, (E event "io.k8s.api.events.v1beta1.Event" fieldManager {} subresource).1 = some e →
      extractEvent E event fieldManager subresource = .ok (none, some e)) ∧
    ((E event "io.k8s.api.events.v1beta1.Event" fieldManager {} subresource).1 = none →
      ∃ b, extractEvent E event fieldManager subresource = .ok (some b, none)) := by
  rcases hE : E event "io.k8s.api.events.v1beta1.Event" fieldManager {} subresource with ⟨err, b⟩
  constructor
  · intro e he
    simp only at he
    subst he
    rw [extractEvent_run, hE]
  · intro hn
    simp only at hn
    subst hn
    exact ⟨withIdentity event b, by rw [extractEvent_run, hE]⟩

theorem extractEvent_all_or_nothing_witness :
    extractEvent sampleEngine
        { Name := "my-event", Namespace := "default", ManagedFields := ["kubectl"] } "" "" =
      .ok (none, some "field manager must not be empty") ∧
    ∃ b, extractEvent sampleEngine
        { Name := "my-event", Namespace := "default", ManagedFields := ["kubectl"] }
        "kubectl" "" = .ok (some b, none) :=
  ⟨(extractEvent_all_or_nothing sampleEngine
      { Name := "my-event", Namespace := "default", ManagedFields := ["kubectl"] } "" "").1
      "field manager must not be empty" (by decide),
   (extractEvent_all_or_nothing sampleEngine
      { Name := "my-event", Namespace := "default", ManagedFields := ["kubectl"] }
      "kubectl" "").2 (by decide)⟩

theorem GoMap.get_set (m : GoMap) (k v k' : String) :
    GoMap.get (GoMap.set m k v) k' = if k = k' then some v else GoMap.get m k' := by
  induction m with
  | nil => simp [GoMap.set, GoMap.get]
  | cons p rest ih =>
    obtain ⟨k1, v1⟩ := p
    by_cases h1 : k1 = k
    · subst h1
      by_cases h2 : k1 = k' <;> simp [GoMap.set, GoMap.get, h2]
    · by_cases h2 : k1 = k'
      · subst h2
        have h3 : ¬ k = k1 := fun h => h1 h.symm
        simp [GoMap.set, GoMap.get, h1, h3]
      · simp [GoMap.set, GoMap.get, h1, h2, ih]

theorem GoMap.get_eq_none_of_not_mem (m : GoMap) (k : String) (h : k ∉ m.map Prod.fst) :
    GoMap.get m k = none := by
  induction m with
  | nil => rfl
  | cons p rest ih =>
    obtain ⟨k1, v1⟩ := p
    simp at h
    have h1 : ¬ k1 = k := fun e => h.1 e.symm
    simp only [GoMap.get, h1, if_false]
    exact ih (by simpa using h.2)

theorem get_assignAll (entries : GoMap) (hwf : GoMap.WF entries) (l : GoMap) (k : String) :
    GoMap.get (assignAll l entries) k =
      match GoMap.get entries k with
      | some v => some v
      | none => GoMap.get l k := by
  induction entries generalizing l with
  | nil => simp [assignAll, GoMap.get]
  | cons p rest ih =>
    obtain ⟨k1, v1⟩ := p
    have hnd : k1 ∉ rest.map Prod.fst ∧ GoMap.WF rest := by
      simpa [GoMap.WF] using hwf
    have hstep : assignAll l ((k1, v1) :: rest) = assignAll (GoMap.set l k1 v1) rest := rfl
    rw [hstep, ih hnd.2, GoMap.get_set]
    by_cases h1 : k1 = k
    · subst h1
      simp [GoMap.get, GoMap.get_eq_none_of_not_mem rest k1 hnd.1]
    · simp [GoMap.get, h1]

theorem mapGet_mapMerge (field entries : Option GoMap) (hwf : MapWF entries) (k : String) :
    mapGet (mapMerge field entries) k =
      match mapGet entries k with
      | some v => some v
      | none => mapGet field k := by
  cases entries with
  | none => cases field <;> simp [mapMerge, mapRange, mapGet, assignAll]
  | some es =>
    have h := fun l => get_assignAll es hwf l k
    cases field with
    | none =>
      cases es with
      | nil => simp [mapMerge, mapRange, mapGet, GoMap.get]
      | cons e rest => simpa [mapMerge, mapRange, mapGet, GoMap.get] using h []
    | some l => simpa [mapMerge, mapRange, mapGet] using h l

theorem WithLabels_loop_run (entries : List (String × String)) (b : EventApplyConfiguration)
    (m : ObjectMetaApplyConfiguration) (l : GoMap) (hl : m.Labels = some l) :
    WithLabels.loop entries (setMeta b m) =
      .ok () (setMeta b { m with Labels := some (assignAll l entries) }) := by
  induction entries generalizing m l with
  | nil =>
    simp only [WithLabels.loop, pure_run, assignAll, List.foldl_nil, ← hl]
  | cons p rest ih =>
    obtain ⟨k, v⟩ := p
    simp only [WithLabels.loop, bind_run, assignLabel, readMeta_setMeta, hl, writeMeta_setMeta]
    rw [ih _ (GoMap.set l k v) rfl]
    rfl

theorem labels_update_self (m : ObjectMetaApplyConfiguration) (L : Option GoMap)
    (h : m.Labels = L) : { m with Labels := L } = m := by
  cases m; simp_all

theorem WithLabels_run (entries : Option GoMap) (b : EventApplyConfiguration) :
    WithLabels entries b =
      .ok () (setMeta b
        { metaOrEmpty b with Labels := mapMerge (metaOrEmpty b).Labels entries }) := by
  unfold WithLabels
  simp only [bind_run, ensure_run, readMeta_setMeta]
  cases hL : (metaOrEmpty b).Labels with
  | some l =>
    simp only [false_and, if_false, pure_run, reduceCtorEq, bind_run]
    rw [WithLabels_loop_run (mapRange entries) b (metaOrEmpty b) l hL]
    simp [mapMerge]
  | none =>
    cases entries with
    | none =>
      simp only [mapLen, mapRange, pure_run, WithLabels.loop, mapMerge, bind_run, gt_iff_lt,
        Nat.lt_irrefl, and_false, if_false]
      rw [labels_update_self _ _ hL]
    | some es =>
      cases es with
      | nil =>
        simp only [mapLen, mapRange, pure_run, WithLabels.loop, mapMerge, bind_run, gt_iff_lt,
          List.length_nil, Nat.lt_irrefl, and_false, if_false]
        rw [labels_update_self _ _ hL]
      | cons e rest =>
        simp only [mapLen, mapRange, List.length_cons, true_and, gt_iff_lt, Nat.zero_lt_succ,
          if_true, writeMeta_setMeta, bind_run]
        rw [WithLabels_loop_run (e :: rest) b _ [] rfl]
        simp [mapMerge, mapRange]

theorem WithAnnotations_loop_run (entries : List (String × String)) (b : EventApplyConfiguration)
    (m : ObjectMetaApplyConfiguration) (l : GoMap) (hl : m.Annotations = some l) :
    WithAnnotations.loop entries (setMeta b m) =
      .ok () (setMeta b { m with Annotations := some (assignAll l entries) }) := by
  induction entries generalizing m l with
  | nil =>
    simp only [WithAnnotations.loop, pure_run, assignAll, List.foldl_nil, ← hl]
  | cons p rest ih =>
    obtain ⟨k, v⟩ := p
    simp only [WithAnnotations.loop, bind_run, assignAnnotation, readMeta_setMeta, hl, writeMeta_setMeta]
    rw [ih _ (GoMap.set l k v) rfl]
    rfl

theorem annotations_update_self (m : ObjectMetaApplyConfiguration) (L : Option GoMap)
    (h : m.Annotations = L) : { m with Annotations := L } = m := by
  cases m; simp_all

theorem WithAnnotations_run (entries : Option GoMap) (b : EventApplyConfiguration) :
    WithAnnotations entries b =
      .ok () (setMeta b
        { metaOrEmpty b with Annotations := mapMerge (metaOrEmpty b).Annotations entries }) := by
  unfold WithAnnotations
  simp only [bind_run, ensure_run, readMeta_setMeta]
  cases hA : (metaOrEmpty b).Annotations with
  | some l =>
    simp only [false_and, if_false, pure_run, reduceCtorEq, bind_run]
    rw [WithAnnotations_loop_run (mapRange entries) b (metaOrEmpty b) l hA]
    simp [mapMerge]
  | none =>
    cases entries with
    | none =>
      simp only [mapLen, mapRange, pure_run, WithAnnotations.loop, mapMerge, bind_run, gt_iff_lt,
        Nat.lt_irrefl, and_false, if_false]
      rw [annotations_update_self _ _ hA]
    | some es =>
      cases es with
      | nil =>
        simp only [mapLen, mapRange, pure_run, WithAnnotations.loop, mapMerge, bind_run, gt_iff_lt,
          List.length_nil, Nat.lt_irrefl, and_false, if_false]
        rw [annotations_update_self _ _ hA]
      | cons e rest =>
        simp only [mapLen, mapRange, List.length_cons, true_and, gt_iff_lt, Nat.zero_lt_succ,
          if_true, writeMeta_setMeta, bind_run]
        rw [WithAnnotations_loop_run (e :: rest) b _ [] rfl]
        simp [mapMerge, mapRange]

theorem labelsOf_eq (b : EventApplyConfiguration) : labelsOf b = (metaOrEmpty b).Labels := by
  unfold labelsOf metaOrEmpty
  cases b.ObjectMetaApplyConfiguration <;> rfl

theorem annotationsOf_eq (b : EventApplyConfiguration) :
    annotationsOf b = (metaOrEmpty b).Annotations := by
  unfold annotationsOf metaOrEmpty
  cases b.ObjectMetaApplyConfiguration <;> rfl

theorem callSeq_nil_run {α : Type} (f : α → Method Unit) (b : EventApplyConfiguration) :
    callSeq f [] b = .ok () b := rfl

theorem callSeq_cons_run {α : Type} (f : α → Method Unit) (a : α) (rest : List α)
    (b : EventApplyConfiguration) :
    callSeq f (a :: rest) b = match f a b with
      | .ok _ b' => callSeq f rest b'
      | .error e b' => .error e b' := by
  rw [callSeq, bind_run]
  cases f a b <;> rfl

theorem lastBatchValue_nil (k : String) : lastBatchValue [] k = none := rfl

theorem lastBatchValue_cons (m : Option GoMap) (ms : List (Option GoMap)) (k : String) :
    lastBatchValue (m :: ms) k =
      match lastBatchValue ms k with
      | some v => some v
      | none => mapGet m k := by
  unfold lastBatchValue
  rw [List.reverse_cons, List.findSome?_append]
  cases h : List.findSome? (fun m => mapGet m k) ms.reverse with
  | none => cases hm : mapGet m k <;> simp [hm]
  | some v => simp

theorem lastBatchValue_eq_none_iff (ms : List (Option GoMap)) (k : String) :
    lastBatchValue ms k = none ↔ ∀ m ∈ ms, mapGet m k = none := by
  unfold lastBatchValue
  simp

/-- What a sequence of merges leaves under a key, given what each merge leaves. -/
theorem merge_seq_get (ms : List (Option GoMap)) (hwf : ∀ m ∈ ms, MapWF m)
    (view : EventApplyConfiguration → Option GoMap) (f : Option GoMap → Method Unit)
    (hf : ∀ m b, ∃ b', f m b = .ok () b' ∧ view b' = mapMerge (view b) m)
    (b : EventApplyConfiguration) :
    ∃ b', callSeq f ms b = .ok () b' ∧
      ∀ k, mapGet (view b') k =
        match lastBatchValue ms k with
        | some v => some v
        | none => mapGet (view b) k := by
  induction ms generalizing b with
  | nil => exact ⟨b, rfl, fun k => by simp [lastBatchValue_nil]⟩
  | cons m rest ih =>
    obtain ⟨b1, h1, hv1⟩ := hf m b
    obtain ⟨b2, h2, hv2⟩ := ih (fun m' hm' => hwf m' (List.mem_cons_of_mem _ hm')) b1
    refine ⟨b2, by rw [callSeq_cons_run, h1]; exact h2, fun k => ?_⟩
    rw [hv2 k, lastBatchValue_cons, hv1, mapGet_mapMerge _ _ (hwf m (List.mem_cons_self _ _))]
    cases lastBatchValue rest k <;> rfl

/-- C7. For every builder and every sequence of calls of `WithLabels` (respectively
`WithAnnotations`) with batches `ms`, each a map, all calls return and the resulting Labels
(Annotations) map gives each key the value of the last batch that holds it, or its prior
value if no batch holds it; so its key set is the union of the prior keys and the keys of
all batches. -/
theorem WithLabels_WithAnnotations_merge (b : EventApplyConfiguration)
    (ms : List (Option GoMap)) (hwf : ∀ m ∈ ms, MapWF m) :
    (∃ b', callSeq WithLabels ms b = .ok () b' ∧
      (∀ k, mapGet (labelsOf b') k =
        match lastBatchValue ms k with
        | some v => some v
        | none => mapGet (labelsOf b) k) ∧
      (∀ k, mapGet (labelsOf b') k ≠ none ↔
        (mapGet (labelsOf b) k ≠ none ∨ ∃ m ∈ ms, mapGet m k ≠ none))) ∧
    (∃ b', callSeq WithAnnotations ms b = .ok () b' ∧
      (∀ k, mapGet (annotationsOf b') k =
        match lastBatchValue ms k with
        | some v => some v
        | none => mapGet (annotationsOf b) k) ∧
      (∀ k, mapGet (annotationsOf b') k ≠ none ↔
        (mapGet (annotationsOf b) k ≠ none ∨ ∃ m ∈ ms, mapGet m k ≠ none))) := by
  have keys : ∀ (x y : Option String) (k : String),
      (x = match lastBatchValue ms k with
        | some v => some v
        | none => y) →
      (x ≠ none ↔ (y ≠ none ∨ ∃ m ∈ ms, mapGet m k ≠ none)) := by
    intro x y k hx
    cases hl : lastBatchValue ms k with
    | none =>
      rw [hl] at hx
      have hall := (lastBatchValue_eq_none_iff ms k).1 hl
      subst hx
      constructor
      · intro h; exact Or.inl h
      · rintro (h | ⟨m, hm, hne⟩)
        · exact h
        · exact absurd (hall m hm) hne
    | some v =>
      rw [hl] at hx
      subst hx
      have hex : ∃ m ∈ ms, mapGet m k ≠ none := by
        by_contra hcon
        push_neg at hcon
        have := (lastBatchValue_eq_none_iff ms k).2 hcon
        rw [hl] at this
        cases this
      simp [hex]
  constructor
  · obtain ⟨b', hrun, hget⟩ := merge_seq_get ms hwf labelsOf WithLabels
      (fun m b => ⟨_, WithLabels_run m b, by simp [labelsOf_eq, metaOrEmpty_setMeta]⟩) b
    exact ⟨b', hrun, hget, fun k => keys _ _ k (hget k)⟩
  · obtain ⟨b', hrun, hget⟩ := merge_seq_get ms hwf annotationsOf WithAnnotations
      (fun m b => ⟨_, WithAnnotations_run m b, by simp [annotationsOf_eq, metaOrEmpty_setMeta]⟩) b
    exact ⟨b', hrun, hget, fun k => keys _ _ k (hget k)⟩

theorem WithGenerateName_run (v : String) (b : EventApplyConfiguration) :
    WithGenerateName v b = .ok () (setMeta b { metaOrEmpty b with GenerateName := some v }) :=
  ensure_write_run _ b

theorem WithUID_run (v : String) (b : EventApplyConfiguration) :
    WithUID v b = .ok () (setMeta b { metaOrEmpty b with UID := some v }) :=
  ensure_write_run _ b

theorem WithResourceVersion_run (v : String) (b : EventApplyConfiguration) :
    WithResourceVersion v b = .ok () (setMeta b { metaOrEmpty b with ResourceVersion := some v }) :=
  ensure_write_run _ b

theorem WithGeneration_run (v : Int) (b : EventApplyConfiguration) :
    WithGeneration v b = .ok () (setMeta b { metaOrEmpty b with Generation := some v }) :=
  ensure_write_run _ b

theorem WithCreationTimestamp_run (v : Time) (b : EventApplyConfiguration) :
    WithCreationTimestamp v b = .ok () (setMeta b { metaOrEmpty b with CreationTimestamp := some v }) :=
  ensure_write_run _ b

theorem WithDeletionTimestamp_run (v : Time) (b : EventApplyConfiguration) :
    WithDeletionTimestamp v b = .ok () (setMeta b { metaOrEmpty b with DeletionTimestamp := some v }) :=
  ensure_write_run _ b

theorem WithDeletionGracePeriodSeconds_run (v : Int) (b : EventApplyConfiguration) :
    WithDeletionGracePeriodSeconds v b = .ok () (setMeta b { metaOrEmpty b with DeletionGracePeriodSeconds := some v }) :=
  ensure_write_run _ b

/-- What a sequence of appends leaves in a slice, given what each append leaves. -/
theorem append_seq_elems {α β : Type} (view : EventApplyConfiguration → Option (List β))
    (f : α → Method Unit) (g : α → List β)
    (hf : ∀ a b, ∃ b', f a b = .ok () b' ∧ sliceElems (view b') = sliceElems (view b) ++ g a)
    (batches : List α) (b : EventApplyConfiguration) :
    ∃ b', callSeq f batches b = .ok () b' ∧
      sliceElems (view b') = sliceElems (view b) ++ (batches.map g).flatten := by
  induction batches generalizing b with
  | nil => exact ⟨b, rfl, by simp⟩
  | cons a rest ih =>
    obtain ⟨b1, h1, hv1⟩ := hf a b
    obtain ⟨b2, h2, hv2⟩ := ih b1
    refine ⟨b2, by rw [callSeq_cons_run, h1]; exact h2, ?_⟩
    rw [hv2, hv1]
    simp

/-- After a non-empty sequence of calls of one method, what the last call establishes
holds. -/
theorem callSeq_last {α : Type} (f : α → Method Unit) (P : α → EventApplyConfiguration → Prop)
    (hf : ∀ a b, ∃ b', f a b = .ok () b' ∧ P a b') (vs : List α) (v : α)
    (b : EventApplyConfiguration) :
    ∃ b', callSeq f (vs ++ [v]) b = .ok () b' ∧ P v b' := by
  induction vs generalizing b with
  | nil =>
    obtain ⟨b1, h1, hp⟩ := hf v b
    exact ⟨b1, by rw [List.nil_append, callSeq_cons_run, h1]; rfl, hp⟩
  | cons a rest ih =>
    obtain ⟨b1, h1, _⟩ := hf a b
    obtain ⟨b2, h2, hp⟩ := ih b1
    exact ⟨b2, by rw [List.cons_append, callSeq_cons_run, h1]; exact h2, hp⟩

/-- C8. For every builder and every sequence of calls of `WithFinalizers` (respectively of
`WithOwnerReferences` with only non-nil arguments), all calls return and the resulting
Finalizers (OwnerReferences) list is the prior list followed by the concatenation of all
batches in call order, each batch in argument order; nothing is dropped, so the final length
is the prior length plus the total number of values passed. -/
theorem WithFinalizers_WithOwnerReferences_append (b : EventApplyConfiguration)
    (fs : List (List String)) (os : List (List OwnerReferenceApplyConfiguration)) :
    (∃ b', callSeq WithFinalizers fs b = .ok () b' ∧
      sliceElems (finalizersOf b') = sliceElems (finalizersOf b) ++ fs.flatten ∧
      (sliceElems (finalizersOf b')).length =
        (sliceElems (finalizersOf b)).length + (fs.map List.length).sum) ∧
    (∃ b', callSeq WithOwnerReferences (os.map fun batch => batch.map some) b = .ok () b' ∧
      sliceElems (ownerReferencesOf b') = sliceElems (ownerReferencesOf b) ++ os.flatten ∧
      (sliceElems (ownerReferencesOf b')).length =
        (sliceElems (ownerReferencesOf b)).length + (os.map List.length).sum) := by
  constructor
  · obtain ⟨b', hrun, hel⟩ := append_seq_elems finalizersOf WithFinalizers id
      (fun a b => ⟨_, WithFinalizers_run a b, by
        simp [finalizersOf_eq, metaOrEmpty_setMeta, sliceElems_sliceAppendAll]⟩) fs b
    simp only [List.map_id] at hel
    exact ⟨b', hrun, hel, by rw [hel, List.length_append, List.length_flatten]⟩
  · have hsome : ∀ batch : List OwnerReferenceApplyConfiguration,
        none ∉ batch.map some ∧ nonNilPrefix (batch.map some) = batch := by
      intro batch
      induction batch with
      | nil => exact ⟨by simp, rfl⟩
      | cons x rest ih => exact ⟨by simp, by simp [nonNilPrefix, ih.2]⟩
    have hstep : ∀ (a : List OwnerReferenceApplyConfiguration) (b : EventApplyConfiguration),
        ∃ b', WithOwnerReferences (a.map some) b = .ok () b' ∧
          sliceElems (ownerReferencesOf b') = sliceElems (ownerReferencesOf b) ++ id a := by
      intro a b
      refine ⟨_, by rw [WithOwnerReferences_run, if_neg (hsome a).1], ?_⟩
      simp [ownerReferencesOf_eq, metaOrEmpty_setMeta, sliceElems_sliceAppendAll, (hsome a).2]
    obtain ⟨b', hrun, hel⟩ := append_seq_elems ownerReferencesOf
      (fun batch : List OwnerReferenceApplyConfiguration => WithOwnerReferences (batch.map some))
      id hstep os b
    simp only [List.map_id] at hel
    have hseq : ∀ (l : List (List OwnerReferenceApplyConfiguration))
        (b : EventApplyConfiguration),
        callSeq WithOwnerReferences (l.map fun batch => batch.map some) b =
          callSeq (fun batch : List OwnerReferenceApplyConfiguration =>
            WithOwnerReferences (batch.map some)) l b := by
      intro l
      induction l with
      | nil => intro b; rfl
      | cons a rest ih =>
        intro b
        rw [List.map_cons, callSeq_cons_run, callSeq_cons_run]
        cases WithOwnerReferences (a.map some) b with
        | ok _ b1 => exact ih b1
        | error e b1 => rfl
    exact ⟨b', by rw [hseq]; exact hrun, hel, by rw [hel, List.length_append, List.length_flatten]⟩

/-- C9. Last call wins for scalar and single-object fields: for every builder and every
non-empty sequence of calls of one mutator whose last argument is `v`, all calls return and
the field is set to `v` afterwards, whatever the earlier arguments and the prior value of
the field. -/
theorem last_call_wins (b : EventApplyConfiguration) :
    (∀ (vs : List String) (v : String), ∃ b', callSeq WithKind (vs ++ [v]) b = .ok () b' ∧
      b'.TypeMetaApplyConfiguration.Kind = some v) ∧
    (∀ (vs : List String) (v : String), ∃ b', callSeq WithAPIVersion (vs ++ [v]) b = .ok () b' ∧
      b'.TypeMetaApplyConfiguration.APIVersion = some v) ∧
    (∀ (vs : List String) (v : String), ∃ b', callSeq WithName (vs ++ [v]) b = .ok () b' ∧
      b'.ObjectMetaApplyConfiguration.map (fun m => m.Name) = some (some v)) ∧
    (∀ (vs : List String) (v : String), ∃ b', callSeq WithGenerateName (vs ++ [v]) b = .ok () b' ∧
      b'.ObjectMetaApplyConfiguration.map (fun m => m.GenerateName) = some (some v)) ∧
    (∀ (vs : List String) (v : String), ∃ b', callSeq WithNamespace (vs ++ [v]) b = .ok () b' ∧
      b'.ObjectMetaApplyConfiguration.map (fun m => m.Namespace) = some (some v)) ∧
    (∀ (vs : List String) (v : String), ∃ b', callSeq WithUID (vs ++ [v]) b = .ok () b' ∧
      b'.ObjectMetaApplyConfiguration.map (fun m => m.UID) = some (some v)) ∧
    (∀ (vs : List String) (v : String), ∃ b', callSeq WithResourceVersion (vs ++ [v]) b = .ok () b' ∧
      b'.ObjectMetaApplyConfiguration.map (fun m => m.ResourceVersion) = some (some v)) ∧
    (∀ (vs : List Int) (v : Int), ∃ b', callSeq WithGeneration (vs ++ [v]) b = .ok () b' ∧
      b'.ObjectMetaApplyConfiguration.map (fun m => m.Generation) = some (some v)) ∧
    (∀ (vs : List Time) (v : Time), ∃ b', callSeq WithCreationTimestamp (vs ++ [v]) b = .ok () b' ∧
      b'.ObjectMetaApplyConfiguration.map (fun m => m.CreationTimestamp) = some (some v)) ∧
    (∀ (vs : List Time) (v : Time), ∃ b', callSeq WithDeletionTimestamp (vs ++ [v]) b = .ok () b' ∧
      b'.ObjectMetaApplyConfiguration.map (fun m => m.DeletionTimestamp) = some (some v)) ∧
    (∀ (vs : List Int) (v : Int), ∃ b', callSeq WithDeletionGracePeriodSeconds (vs ++ [v]) b = .ok () b' ∧
      b'.ObjectMetaApplyConfiguration.map (fun m => m.DeletionGracePeriodSeconds) = some (some v)) ∧
    (∀ (vs : List MicroTime) (v : MicroTime), ∃ b', callSeq WithEventTime (vs ++ [v]) b = .ok () b' ∧
      b'.EventTime = some v) ∧
    (∀ (vs : List (Option EventSeriesApplyConfiguration)) (v : Option EventSeriesApplyConfiguration), ∃ b', callSeq WithSeries (vs ++ [v]) b = .ok () b' ∧
      b'.Series = v) ∧
    (∀ (vs : List String) (v : String), ∃ b', callSeq WithReportingController (vs ++ [v]) b = .ok () b' ∧
      b'.ReportingController = some v) ∧
    (∀ (vs : List String) (v : String), ∃ b', callSeq WithReportingInstance (vs ++ [v]) b = .ok () b' ∧
      b'.ReportingInstance = some v) ∧
    (∀ (vs : List String) (v : String), ∃ b', callSeq WithAction (vs ++ [v]) b = .ok () b' ∧
      b'.Action = some v) ∧
    (∀ (vs : List String) (v : String), ∃ b', callSeq WithReason (vs ++ [v]) b = .ok () b' ∧
      b'.Reason = some v) ∧
    (∀ (vs : List (Option ObjectReferenceApplyConfiguration)) (v : Option ObjectReferenceApplyConfiguration), ∃ b', callSeq WithRegarding (vs ++ [v]) b = .ok () b' ∧
      b'.Regarding = v) ∧
    (∀ (vs : List (Option ObjectReferenceApplyConfiguration)) (v : Option ObjectReferenceApplyConfiguration), ∃ b', callSeq WithRelated (vs ++ [v]) b = .ok () b' ∧
      b'.Related = v) ∧
    (∀ (vs : List String) (v : String), ∃ b', callSeq WithNote (vs ++ [v]) b = .ok () b' ∧
      b'.Note = some v) ∧
    (∀ (vs : List String) (v : String), ∃ b', callSeq WithType (vs ++ [v]) b = .ok () b' ∧
      b'.Type_ = some v) ∧
    (∀ (vs : List (Option EventSourceApplyConfiguration)) (v : Option EventSourceApplyConfiguration), ∃ b', callSeq WithDeprecatedSource (vs ++ [v]) b = .ok () b' ∧
      b'.DeprecatedSource = v) ∧
    (∀ (vs : List Time) (v : Time), ∃ b', callSeq WithDeprecatedFirstTimestamp (vs ++ [v]) b = .ok () b' ∧
      b'.DeprecatedFirstTimestamp = some v) ∧
    (∀ (vs : List Time) (v : Time), ∃ b', callSeq WithDeprecatedLastTimestamp (vs ++ [v]) b = .ok () b' ∧
      b'.DeprecatedLastTimestamp = some v) ∧
    (∀ (vs : List Int) (v : Int), ∃ b', callSeq WithDeprecatedCount (vs ++ [v]) b = .ok () b' ∧
      b'.DeprecatedCount = some v) :=
  ⟨fun vs v => callSeq_last WithKind (fun v b' => b'.TypeMetaApplyConfiguration.Kind = some v)
      (fun _ _ => ⟨_, rfl, rfl⟩) vs v b,
   fun vs v => callSeq_last WithAPIVersion
      (fun v b' => b'.TypeMetaApplyConfiguration.APIVersion = some v)
      (fun _ _ => ⟨_, rfl, rfl⟩) vs v b,
   fun vs v => callSeq_last WithName
      (fun v b' => b'.ObjectMetaApplyConfiguration.map (fun m => m.Name) = some (some v))
      (fun a b => ⟨_, WithName_run a b, rfl⟩) vs v b,
   fun vs v => callSeq_last WithGenerateName
      (fun v b' => b'.ObjectMetaApplyConfiguration.map (fun m => m.GenerateName) = some (some v))
      (fun a b => ⟨_, WithGenerateName_run a b, rfl⟩) vs v b,
   fun vs v => callSeq_last WithNamespace
      (fun v b' => b'.ObjectMetaApplyConfiguration.map (fun m => m.Namespace) = some (some v))
      (fun a b => ⟨_, WithNamespace_run a b, rfl⟩) vs v b,
   fun vs v => callSeq_last WithUID
      (fun v b' => b'.ObjectMetaApplyConfiguration.map (fun m => m.UID) = some (some v))
      (fun a b => ⟨_, WithUID_run a b, rfl⟩) vs v b,
   fun vs v => callSeq_last WithResourceVersion
      (fun v b' => b'.ObjectMetaApplyConfiguration.map (fun m => m.ResourceVersion) = some (some v))
      (fun a b => ⟨_, WithResourceVersion_run a b, rfl⟩) vs v b,
   fun vs v => callSeq_last WithGeneration
      (fun v b' => b'.ObjectMetaApplyConfiguration.map (fun m => m.Generation) = some (some v))
      (fun a b => ⟨_, WithGeneration_run a b, rfl⟩) vs v b,
   fun vs v => callSeq_last WithCreationTimestamp
      (fun v b' => b'.ObjectMetaApplyConfiguration.map (fun m => m.CreationTimestamp) = some (some v))
      (fun a b => ⟨_, WithCreationTimestamp_run a b, rfl⟩) vs v b,
   fun vs v => callSeq_last WithDeletionTimestamp
      (fun v b' => b'.ObjectMetaApplyConfiguration.map (fun m => m.DeletionTimestamp) = some (some v))
      (fun a b => ⟨_, WithDeletionTimestamp_run a b, rfl⟩) vs v b,
   fun vs v => callSeq_last WithDeletionGracePeriodSeconds
      (fun v b' => b'.ObjectMetaApplyConfiguration.map (fun m => m.DeletionGracePeriodSeconds) = some (some v))
      (fun a b => ⟨_, WithDeletionGracePeriodSeconds_run a b, rfl⟩) vs v b,
   fun vs v => callSeq_last WithEventTime (fun v b' => b'.EventTime = some v)
      (fun _ _ => ⟨_, rfl, rfl⟩) vs v b,
   fun vs v => callSeq_last WithSeries (fun v b' => b'.Series = v)
      (fun _ _ => ⟨_, rfl, rfl⟩) vs v b,
   fun vs v => callSeq_last WithReportingController (fun v b' => b'.ReportingController = some v)
      (fun _ _ => ⟨_, rfl, rfl⟩) vs v b,
   fun vs v => callSeq_last WithReportingInstance (fun v b' => b'.ReportingInstance = some v)
      (fun _ _ => ⟨_, rfl, rfl⟩) vs v b,
   fun vs v => callSeq_last WithAction (fun v b' => b'.Action = some v)
      (fun _ _ => ⟨_, rfl, rfl⟩) vs v b,
   fun vs v => callSeq_last WithReason (fun v b' => b'.Reason = some v)
      (fun _ _ => ⟨_, rfl, rfl⟩) vs v b,
   fun vs v => callSeq_last WithRegarding (fun v b' => b'.Regarding = v)
      (fun _ _ => ⟨_, rfl, rfl⟩) vs v b,
   fun vs v => callSeq_last WithRelated (fun v b' => b'.Related = v)
      (fun _ _ => ⟨_, rfl, rfl⟩) vs v b,
   fun vs v => callSeq_last WithNote (fun v b' => b'.Note = some v)
      (fun _ _ => ⟨_, rfl, rfl⟩) vs v b,
   fun vs v => callSeq_last WithType (fun v b' => b'.Type_ = some v)
      (fun _ _ => ⟨_, rfl, rfl⟩) vs v b,
   fun vs v => callSeq_last WithDeprecatedSource (fun v b' => b'.DeprecatedSource = v)
      (fun _ _ => ⟨_, rfl, rfl⟩) vs v b,
   fun vs v => callSeq_last WithDeprecatedFirstTimestamp (fun v b' => b'.DeprecatedFirstTimestamp = some v)
      (fun _ _ => ⟨_, rfl, rfl⟩) vs v b,
   fun vs v => callSeq_last WithDeprecatedLastTimestamp (fun v b' => b'.DeprecatedLastTimestamp = some v)
      (fun _ _ => ⟨_, rfl, rfl⟩) vs v b,
   fun vs v => callSeq_last WithDeprecatedCount (fun v b' => b'.DeprecatedCount = some v)
      (fun _ _ => ⟨_, rfl, rfl⟩) vs v b⟩

theorem member?_obj (members : List (String × Json)) (k : String) :
    (Json.obj members).member? k = findMember members k := rfl

theorem findMember_nil (k : String) : findMember [] k = none := rfl

theorem findMember_member_append (key : String) (value : Option Json)
    (rest : List (String × Json)) (k : String) :
    findMember (member key value ++ rest) k =
      if key = k then
        match value with
        | some j => some j
        | none => findMember rest k
      else findMember rest k := by
  cases value with
  | none => simp [member, findMember]
  | some j =>
    by_cases h : key = k <;> simp [member, findMember, List.find?, h]

theorem findMember_member (key : String) (value : Option Json) (k : String) :
    findMember (member key value) k =
      if key = k then value else none := by
  have h := findMember_member_append key value [] k
  rw [List.append_nil] at h
  rw [h]
  cases value <;> simp [findMember_nil]

theorem serialize_at_kind (tm : TimeMarshalers) (b : EventApplyConfiguration) :
    (serialize tm b).at? ["kind"] = b.TypeMetaApplyConfiguration.Kind.map .str := by
  simp [serialize, Json.at?, member?_obj, findMember_member_append, findMember_member]
  cases b.TypeMetaApplyConfiguration.Kind <;> simp

theorem serialize_at_apiVersion (tm : TimeMarshalers) (b : EventApplyConfiguration) :
    (serialize tm b).at? ["apiVersion"] = b.TypeMetaApplyConfiguration.APIVersion.map .str := by
  simp [serialize, Json.at?, member?_obj, findMember_member_append, findMember_member]
  cases b.TypeMetaApplyConfiguration.APIVersion <;> simp

theorem serialize_at_reportingController (tm : TimeMarshalers) (b : EventApplyConfiguration) :
    (serialize tm b).at? ["reportingController"] = b.ReportingController.map .str := by
  simp [serialize, Json.at?, member?_obj, findMember_member_append, findMember_member]
  cases b.ReportingController <;> simp

theorem serialize_at_reportingInstance (tm : TimeMarshalers) (b : EventApplyConfiguration) :
    (serialize tm b).at? ["reportingInstance"] = b.ReportingInstance.map .str := by
  simp [serialize, Json.at?, member?_obj, findMember_member_append, findMember_member]
  cases b.ReportingInstance <;> simp

theorem serialize_at_action (tm : TimeMarshalers) (b : EventApplyConfiguration) :
    (serialize tm b).at? ["action"] = b.Action.map .str := by
  simp [serialize, Json.at?, member?_obj, findMember_member_append, findMember_member]
  cases b.Action <;> simp

theorem serialize_at_reason (tm : TimeMarshalers) (b : EventApplyConfiguration) :
    (serialize tm b).at? ["reason"] = b.Reason.map .str := by
  simp [serialize, Json.at?, member?_obj, findMember_member_append, findMember_member]
  cases b.Reason <;> simp

theorem serialize_at_note (tm : TimeMarshalers) (b : EventApplyConfiguration) :
    (serialize tm b).at? ["note"] = b.Note.map .str := by
  simp [serialize, Json.at?, member?_obj, findMember_member_append, findMember_member]
  cases b.Note <;> simp

theorem serialize_at_type (tm : TimeMarshalers) (b : EventApplyConfiguration) :
    (serialize tm b).at? ["type"] = b.Type_.map .str := by
  simp [serialize, Json.at?, member?_obj, findMember_member_append, findMember_member]
  cases b.Type_ <;> simp

theorem serialize_at_deprecatedCount (tm : TimeMarshalers) (b : EventApplyConfiguration) :
    (serialize tm b).at? ["deprecatedCount"] = b.DeprecatedCount.map .num := by
  simp [serialize, Json.at?, member?_obj, findMember_member_append, findMember_member]
  cases b.DeprecatedCount <;> simp

theorem serialize_at_metadata_name (tm : TimeMarshalers) (b : EventApplyConfiguration) :
    (serialize tm b).at? ["metadata", "name"] =
      (b.ObjectMetaApplyConfiguration.bind fun m => m.Name).map .str := by
  simp [serialize, Json.at?, member?_obj, findMember_member_append, findMember_member]
  cases b.ObjectMetaApplyConfiguration with
  | none => simp
  | some m =>
    simp [ObjectMetaApplyConfiguration.toJson, member?_obj, findMember_member_append,
      findMember_member]
    cases m.Name <;> simp

theorem serialize_at_metadata_generateName (tm : TimeMarshalers) (b : EventApplyConfiguration) :
    (serialize tm b).at? ["metadata", "generateName"] =
      (b.ObjectMetaApplyConfiguration.bind fun m => m.GenerateName).map .str := by
  simp [serialize, Json.at?, member?_obj, findMember_member_append, findMember_member]
  cases b.ObjectMetaApplyConfiguration with
  | none => simp
  | some m =>
    simp [ObjectMetaApplyConfiguration.toJson, member?_obj, findMember_member_append,
      findMember_member]
    cases m.GenerateName <;> simp

theorem serialize_at_metadata_namespace (tm : TimeMarshalers) (b : EventApplyConfiguration) :
    (serialize tm b).at? ["metadata", "namespace"] =
      (b.ObjectMetaApplyConfiguration.bind fun m => m.Namespace).map .str := by
  simp [serialize, Json.at?, member?_obj, findMember_member_append, findMember_member]
  cases b.ObjectMetaApplyConfiguration with
  | none => simp
  | some m =>
    simp [ObjectMetaApplyConfiguration.toJson, member?_obj, findMember_member_append,
      findMember_member]
    cases m.Namespace <;> simp

theorem serialize_at_metadata_uid (tm : TimeMarshalers) (b : EventApplyConfiguration) :
    (serialize tm b).at? ["metadata", "uid"] =
      (b.ObjectMetaApplyConfiguration.bind fun m => m.UID).map .str := by
  simp [serialize, Json.at?, member?_obj, findMember_member_append, findMember_member]
  cases b.ObjectMetaApplyConfiguration with
  | none => simp
  | some m =>
    simp [ObjectMetaApplyConfiguration.toJson, member?_obj, findMember_member_append,
      findMember_member]
    cases m.UID <;> simp

theorem serialize_at_metadata_resourceVersion (tm : TimeMarshalers) (b : EventApplyConfiguration) :
    (serialize tm b).at? ["metadata", "resourceVersion"] =
      (b.ObjectMetaApplyConfiguration.bind fun m => m.ResourceVersion).map .str := by
  simp [serialize, Json.at?, member?_obj, findMember_member_append, findMember_member]
  cases b.ObjectMetaApplyConfiguration with
  | none => simp
  | some m =>
    simp [ObjectMetaApplyConfiguration.toJson, member?_obj, findMember_member_append,
      findMember_member]
    cases m.ResourceVersion <;> simp

theorem serialize_at_metadata_generation (tm : TimeMarshalers) (b : EventApplyConfiguration) :
    (serialize tm b).at? ["metadata", "generation"] =
      (b.ObjectMetaApplyConfiguration.bind fun m => m.Generation).map .num := by
  simp [serialize, Json.at?, member?_obj, findMember_member_append, findMember_member]
  cases b.ObjectMetaApplyConfiguration with
  | none => simp
  | some m =>
    simp [ObjectMetaApplyConfiguration.toJson, member?_obj, findMember_member_append,
      findMember_member]
    cases m.Generation <;> simp

theorem serialize_at_metadata_deletionGracePeriodSeconds (tm : TimeMarshalers) (b : EventApplyConfiguration) :
    (serialize tm b).at? ["metadata", "deletionGracePeriodSeconds"] =
      (b.ObjectMetaApplyConfiguration.bind fun m => m.DeletionGracePeriodSeconds).map .num := by
  simp [serialize, Json.at?, member?_obj, findMember_member_append, findMember_member]
  cases b.ObjectMetaApplyConfiguration with
  | none => simp
  | some m =>
    simp [ObjectMetaApplyConfiguration.toJson, member?_obj, findMember_member_append,
      findMember_member]
    cases m.DeletionGracePeriodSeconds <;> simp

/-- C10. Unset is distinct from set-to-zero for scalar fields: for every builder, calling a
value-taking scalar mutator with the zero value of its type returns and leaves the field
set, holding the zero value, which is not the unset field; the serialized document has the
key, with the zero value, after the call, and it lacks the key exactly when the field is
unset. -/
theorem zero_value_is_set (tm : TimeMarshalers) (b : EventApplyConfiguration) :
    ((∃ b', WithKind "" b = .ok () b' ∧ b'.TypeMetaApplyConfiguration.Kind = some "" ∧ b'.TypeMetaApplyConfiguration.Kind ≠ none ∧
        (serialize tm b').at? ["kind"] = some (.str "")) ∧
      ((serialize tm b).at? ["kind"] = none ↔ b.TypeMetaApplyConfiguration.Kind = none)) ∧
    ((∃ b', WithAPIVersion "" b = .ok () b' ∧ b'.TypeMetaApplyConfiguration.APIVersion = some "" ∧ b'.TypeMetaApplyConfiguration.APIVersion ≠ none ∧
        (serialize tm b').at? ["apiVersion"] = some (.str "")) ∧
      ((serialize tm b).at? ["apiVersion"] = none ↔ b.TypeMetaApplyConfiguration.APIVersion = none)) ∧
    ((∃ b', WithReportingController "" b = .ok () b' ∧ b'.ReportingController = some "" ∧ b'.ReportingController ≠ none ∧
        (serialize tm b').at? ["reportingController"] = some (.str "")) ∧
      ((serialize tm b).at? ["reportingController"] = none ↔ b.ReportingController = none)) ∧
    ((∃ b', WithReportingInstance "" b = .ok () b' ∧ b'.ReportingInstance = some "" ∧ b'.ReportingInstance ≠ none ∧
        (serialize tm b').at? ["reportingInstance"] = some (.str "")) ∧
      ((serialize tm b).at? ["reportingInstance"] = none ↔ b.ReportingInstance = none)) ∧
    ((∃ b', WithAction "" b = .ok () b' ∧ b'.Action = some "" ∧ b'.Action ≠ none ∧
        (serialize tm b').at? ["action"] = some (.str "")) ∧
      ((serialize tm b).at? ["action"] = none ↔ b.Action = none)) ∧
    ((∃ b', WithReason "" b = .ok () b' ∧ b'.Reason = some "" ∧ b'.Reason ≠ none ∧
        (serialize tm b').at? ["reason"] = some (.str "")) ∧
      ((serialize tm b).at? ["reason"] = none ↔ b.Reason = none)) ∧
    ((∃ b', WithNote "" b = .ok () b' ∧ b'.Note = some "" ∧ b'.Note ≠ none ∧
        (serialize tm b').at? ["note"] = some (.str "")) ∧
      ((serialize tm b).at? ["note"] = none ↔ b.Note = none)) ∧
    ((∃ b', WithType "" b = .ok () b' ∧ b'.Type_ = some "" ∧ b'.Type_ ≠ none ∧
        (serialize tm b').at? ["type"] = some (.str "")) ∧
      ((serialize tm b).at? ["type"] = none ↔ b.Type_ = none)) ∧
    ((∃ b', WithDeprecatedCount 0 b = .ok () b' ∧ b'.DeprecatedCount = some 0 ∧ b'.DeprecatedCount ≠ none ∧
        (serialize tm b').at? ["deprecatedCount"] = some (.num 0)) ∧
      ((serialize tm b).at? ["deprecatedCount"] = none ↔ b.DeprecatedCount = none)) ∧
    ((∃ b', WithName "" b = .ok () b' ∧
        (b'.ObjectMetaApplyConfiguration.bind fun m => m.Name) = some "" ∧
        (b'.ObjectMetaApplyConfiguration.bind fun m => m.Name) ≠ none ∧
        (serialize tm b').at? ["metadata", "name"] = some (.str "")) ∧
      ((serialize tm b).at? ["metadata", "name"] = none ↔
        (b.ObjectMetaApplyConfiguration.bind fun m => m.Name) = none)) ∧
    ((∃ b', WithGenerateName "" b = .ok () b' ∧
        (b'.ObjectMetaApplyConfiguration.bind fun m => m.GenerateName) = some "" ∧
        (b'.ObjectMetaApplyConfiguration.bind fun m => m.GenerateName) ≠ none ∧
        (serialize tm b').at? ["metadata", "generateName"] = some (.str "")) ∧
      ((serialize tm b).at? ["metadata", "generateName"] = none ↔
        (b.ObjectMetaApplyConfiguration.bind fun m => m.GenerateName) = none)) ∧
    ((∃ b', WithNamespace "" b = .ok () b' ∧
        (b'.ObjectMetaApplyConfiguration.bind fun m => m.Namespace) = some "" ∧
        (b'.ObjectMetaApplyConfiguration.bind fun m => m.Namespace) ≠ none ∧
        (serialize tm b').at? ["metadata", "namespace"] = some (.str "")) ∧
      ((serialize tm b).at? ["metadata", "namespace"] = none ↔
        (b.ObjectMetaApplyConfiguration.bind fun m => m.Namespace) = none)) ∧
    ((∃ b', WithUID "" b = .ok () b' ∧
        (b'.ObjectMetaApplyConfiguration.bind fun m => m.UID) = some "" ∧
        (b'.ObjectMetaApplyConfiguration.bind fun m => m.UID) ≠ none ∧
        (serialize tm b').at? ["metadata", "uid"] = some (.str "")) ∧
      ((serialize tm b).at? ["metadata", "uid"] = none ↔
        (b.ObjectMetaApplyConfiguration.bind fun m => m.UID) = none)) ∧
    ((∃ b', WithResourceVersion "" b = .ok () b' ∧
        (b'.ObjectMetaApplyConfiguration.bind fun m => m.ResourceVersion) = some "" ∧
        (b'.ObjectMetaApplyConfiguration.bind fun m => m.ResourceVersion) ≠ none ∧
        (serialize tm b').at? ["metadata", "resourceVersion"] = some (.str "")) ∧
      ((serialize tm b).at? ["metadata", "resourceVersion"] = none ↔
        (b.ObjectMetaApplyConfiguration.bind fun m => m.ResourceVersion) = none)) ∧
    ((∃ b', WithGeneration 0 b = .ok () b' ∧
        (b'.ObjectMetaApplyConfiguration.bind fun m => m.Generation) = some 0 ∧
        (b'.ObjectMetaApplyConfiguration.bind fun m => m.Generation) ≠ none ∧
        (serialize tm b').at? ["metadata", "generation"] = some (.num 0)) ∧
      ((serialize tm b).at? ["metadata", "generation"] = none ↔
        (b.ObjectMetaApplyConfiguration.bind fun m => m.Generation) = none)) ∧
    ((∃ b', WithDeletionGracePeriodSeconds 0 b = .ok () b' ∧
        (b'.ObjectMetaApplyConfiguration.bind fun m => m.DeletionGracePeriodSeconds) = some 0 ∧
        (b'.ObjectMetaApplyConfiguration.bind fun m => m.DeletionGracePeriodSeconds) ≠ none ∧
        (serialize tm b').at? ["metadata", "deletionGracePeriodSeconds"] = some (.num 0)) ∧
      ((serialize tm b).at? ["metadata", "deletionGracePeriodSeconds"] = none ↔
        (b.ObjectMetaApplyConfiguration.bind fun m => m.DeletionGracePeriodSeconds) = none)) :=
  ⟨⟨⟨_, rfl, rfl, by simp [WithKind], by rw [serialize_at_kind]; rfl⟩,
     by rw [serialize_at_kind]; cases b.TypeMetaApplyConfiguration.Kind <;> simp⟩,
   ⟨⟨_, rfl, rfl, by simp [WithAPIVersion], by rw [serialize_at_apiVersion]; rfl⟩,
     by rw [serialize_at_apiVersion]; cases b.TypeMetaApplyConfiguration.APIVersion <;> simp⟩,
   ⟨⟨_, rfl, rfl, by simp [WithReportingController], by rw [serialize_at_reportingController]; rfl⟩,
     by rw [serialize_at_reportingController]; cases b.ReportingController <;> simp⟩,
   ⟨⟨_, rfl, rfl, by simp [WithReportingInstance], by rw [serialize_at_reportingInstance]; rfl⟩,
     by rw [serialize_at_reportingInstance]; cases b.ReportingInstance <;> simp⟩,
   ⟨⟨_, rfl, rfl, by simp [WithAction], by rw [serialize_at_action]; rfl⟩,
     by rw [serialize_at_action]; cases b.Action <;> simp⟩,
   ⟨⟨_, rfl, rfl, by simp [WithReason], by rw [serialize_at_reason]; rfl⟩,
     by rw [serialize_at_reason]; cases b.Reason <;> simp⟩,
   ⟨⟨_, rfl, rfl, by simp [WithNote], by rw [serialize_at_note]; rfl⟩,
     by rw [serialize_at_note]; cases b.Note <;> simp⟩,
   ⟨⟨_, rfl, rfl, by simp [WithType], by rw [serialize_at_type]; rfl⟩,
     by rw [serialize_at_type]; cases b.Type_ <;> simp⟩,
   ⟨⟨_, rfl, rfl, by simp [WithDeprecatedCount], by rw [serialize_at_deprecatedCount]; rfl⟩,
     by rw [serialize_at_deprecatedCount]; cases b.DeprecatedCount <;> simp⟩,
   ⟨⟨_, WithName_run _ b, rfl, by simp [setMeta], by rw [serialize_at_metadata_name]; rfl⟩,
     by rw [serialize_at_metadata_name]
        cases (b.ObjectMetaApplyConfiguration.bind fun m => m.Name) <;> simp⟩,
   ⟨⟨_, WithGenerateName_run _ b, rfl, by simp [setMeta], by rw [serialize_at_metadata_generateName]; rfl⟩,
     by rw [serialize_at_metadata_generateName]
        cases (b.ObjectMetaApplyConfiguration.bind fun m => m.GenerateName) <;> simp⟩,
   ⟨⟨_, WithNamespace_run _ b, rfl, by simp [setMeta], by rw [serialize_at_metadata_namespace]; rfl⟩,
     by rw [serialize_at_metadata_namespace]
        cases (b.ObjectMetaApplyConfiguration.bind fun m => m.Namespace) <;> simp⟩,
   ⟨⟨_, WithUID_run _ b, rfl, by simp [setMeta], by rw [serialize_at_metadata_uid]; rfl⟩,
     by rw [serialize_at_metadata_uid]
        cases (b.ObjectMetaApplyConfiguration.bind fun m => m.UID) <;> simp⟩,
   ⟨⟨_, WithResourceVersion_run _ b, rfl, by simp [setMeta], by rw [serialize_at_metadata_resourceVersion]; rfl⟩,
     by rw [serialize_at_metadata_resourceVersion]
        cases (b.ObjectMetaApplyConfiguration.bind fun m => m.ResourceVersion) <;> simp⟩,
   ⟨⟨_, WithGeneration_run _ b, rfl, by simp [setMeta], by rw [serialize_at_metadata_generation]; rfl⟩,
     by rw [serialize_at_metadata_generation]
        cases (b.ObjectMetaApplyConfiguration.bind fun m => m.Generation) <;> simp⟩,
   ⟨⟨_, WithDeletionGracePeriodSeconds_run _ b, rfl, by simp [setMeta], by rw [serialize_at_metadata_deletionGracePeriodSeconds]; rfl⟩,
     by rw [serialize_at_metadata_deletionGracePeriodSeconds]
        cases (b.ObjectMetaApplyConfiguration.bind fun m => m.DeletionGracePeriodSeconds) <;> simp⟩⟩

theorem WithLabels_WithAnnotations_merge_witness :
    (∀ m ∈ ([some [("a", "1"), ("b", "2")], some [("b", "3")], none] : List (Option GoMap)),
      MapWF m) ∧
    ∃ b', callSeq WithLabels [some [("a", "1"), ("b", "2")], some [("b", "3")], none] {} =
        .ok () b' ∧
      mapGet (labelsOf b') "a" = some "1" ∧ mapGet (labelsOf b') "b" = some "3" ∧
      mapGet (labelsOf b') "c" = none := by
  have hwf : ∀ m ∈ ([some [("a", "1"), ("b", "2")], some [("b", "3")], none] :
      List (Option GoMap)), MapWF m := by
    simp [MapWF, GoMap.WF]
  obtain ⟨⟨b', hrun, hget, _⟩, _⟩ := WithLabels_WithAnnotations_merge {} _ hwf
  refine ⟨hwf, b', hrun, ?_, ?_, ?_⟩
  · rw [hget]; simp [lastBatchValue, mapGet, GoMap.get]
  · rw [hget]; simp [lastBatchValue, mapGet, GoMap.get]
  · rw [hget]; simp [lastBatchValue, mapGet, GoMap.get, labelsOf]

theorem setMeta_metaOrEmpty (b : EventApplyConfiguration) :
    setMeta b (metaOrEmpty b) = withMetaEnsured b := by
  unfold withMetaEnsured
  cases h : b.ObjectMetaApplyConfiguration with
  | none => simp [setMeta, metaOrEmpty, h]
  | some m => simp [setMeta_self b m h, metaOrEmpty_of_some b m h]

theorem GetName_run (b : EventApplyConfiguration) :
    GetName b = .ok (metaOrEmpty b).Name (setMeta b (metaOrEmpty b)) := by
  unfold GetName
  simp only [bind_run, ensure_run, readMeta_setMeta, pure_run]

theorem GetNamespace_run (b : EventApplyConfiguration) :
    GetNamespace b = .ok (metaOrEmpty b).Namespace (setMeta b (metaOrEmpty b)) := by
  unfold GetNamespace
  simp only [bind_run, ensure_run, readMeta_setMeta, pure_run]

theorem metaOrEmpty_field {α : Type} (f : ObjectMetaApplyConfiguration → Option α)
    (hf : f {} = none) (b : EventApplyConfiguration) :
    f (metaOrEmpty b) = b.ObjectMetaApplyConfiguration.bind f := by
  unfold metaOrEmpty
  cases b.ObjectMetaApplyConfiguration with
  | none => simpa using hf
  | some m => rfl

/-- C11. For all strings name, namespace, reason and type, the builder
`Event(name, namespace).WithReason(reason).WithType(type)` is built without a fault and
serializes to the document whose keys are exactly kind = "Event",
apiVersion = "events.k8s.io/v1beta1", metadata = {name, namespace}, reason and type. -/
theorem Event_WithReason_WithType_document (tm : TimeMarshalers)
    (name namespace_ reason type_ : String) :
    ∃ b b', Event name namespace_ = .ok b ∧
      (WithReason reason >>= fun _ => WithType type_) b = .ok () b' ∧
      serialize tm b' = .obj
        [("kind", .str "Event"), ("apiVersion", .str "events.k8s.io/v1beta1"),
         ("metadata", .obj [("name", .str name), ("namespace", .str namespace_)]),
         ("reason", .str reason), ("type", .str type_)] := by
  refine ⟨{ TypeMetaApplyConfiguration :=
               { Kind := some "Event", APIVersion := some "events.k8s.io/v1beta1" },
            ObjectMetaApplyConfiguration :=
               some { Name := some name, Namespace := some namespace_ } },
          { TypeMetaApplyConfiguration :=
               { Kind := some "Event", APIVersion := some "events.k8s.io/v1beta1" },
            ObjectMetaApplyConfiguration :=
               some { Name := some name, Namespace := some namespace_ },
            Reason := some reason, Type_ := some type_ }, ?_, rfl, ?_⟩
  · simp [Event, returnReceiver, bind_run, WithName_run, WithNamespace_run, WithKind,
      WithAPIVersion, setMeta, metaOrEmpty]
  · simp [serialize, member, ObjectMetaApplyConfiguration.toJson, mapJson, sliceJson]

/-- C12. Getters read back what setters wrote: `GetKind` after `WithKind(v)`, `GetAPIVersion`
after `WithAPIVersion(v)`, `GetName` after `WithName(v)` and `GetNamespace` after
`WithNamespace(v)` each return `v`; on every builder each getter returns, without a fault,
the current value of its field, which is nil when the field was never set, a builder with no
metadata sub-object included. -/
theorem getters_read_setters (b : EventApplyConfiguration) (v : String) :
    (∃ b', WithKind v b = .ok () b' ∧ GetKind b' = .ok (some v) b') ∧
    (∃ b', WithAPIVersion v b = .ok () b' ∧ GetAPIVersion b' = .ok (some v) b') ∧
    (∃ b', WithName v b = .ok () b' ∧ GetName b' = .ok (some v) b') ∧
    (∃ b', WithNamespace v b = .ok () b' ∧ GetNamespace b' = .ok (some v) b') ∧
    GetKind b = .ok b.TypeMetaApplyConfiguration.Kind b ∧
    GetAPIVersion b = .ok b.TypeMetaApplyConfiguration.APIVersion b ∧
    (∃ b', GetName b = .ok (b.ObjectMetaApplyConfiguration.bind fun m => m.Name) b') ∧
    (∃ b', GetNamespace b =
      .ok (b.ObjectMetaApplyConfiguration.bind fun m => m.Namespace) b') ∧
    GetKind {} = .ok none {} ∧ GetAPIVersion {} = .ok none {} ∧
    GetName {} = .ok none { ObjectMetaApplyConfiguration := some {} } ∧
    GetNamespace {} = .ok none { ObjectMetaApplyConfiguration := some {} } := by
  refine ⟨?_, ?_, ?_, ?_, rfl, rfl, ?_, ?_, rfl, rfl, rfl, rfl⟩
  · exact ⟨_, rfl, rfl⟩
  · exact ⟨_, rfl, rfl⟩
  · exact ⟨_, WithName_run v b, by rw [GetName_run]; rfl⟩
  · exact ⟨_, WithNamespace_run v b, by rw [GetNamespace_run]; rfl⟩
  · exact ⟨_, by rw [GetName_run, metaOrEmpty_field (fun m => m.Name) rfl]⟩
  · exact ⟨_, by rw [GetNamespace_run, metaOrEmpty_field (fun m => m.Namespace) rfl]⟩

/-- C14. `ExtractEvent(event, fieldManager)` is `extractEvent(event, fieldManager, "")` and
`ExtractEventStatus(event, fieldManager)` is `extractEvent(event, fieldManager, "status")`:
each is decided by the one call of the ownership engine, with subresource "" for the first
and "status" for the second, so the two agree whenever the engine answers both calls
alike. -/
theorem ExtractEvent_ExtractEventStatus_subresource (E : Engine)
    (event : eventsv1beta1.Event) (fieldManager : String) :
    ExtractEvent E event fieldManager = extractEvent E event fieldManager "" ∧
    ExtractEventStatus E event fieldManager = extractEvent E event fieldManager "status" ∧
    (ExtractEvent E event fieldManager =
      match E event "io.k8s.api.events.v1beta1.Event" fieldManager {} "" with
      | (some e, _) => .ok (none, some e)
      | (none, b) => .ok (some (withIdentity event b), none)) ∧
    (ExtractEventStatus E event fieldManager =
      match E event "io.k8s.api.events.v1beta1.Event" fieldManager {} "status" with
      | (some e, _) => .ok (none, some e)
      | (none, b) => .ok (some (withIdentity event b), none)) ∧
    (E event "io.k8s.api.events.v1beta1.Event" fieldManager {} "" =
        E event "io.k8s.api.events.v1beta1.Event" fieldManager {} "status" →
      ExtractEvent E event fieldManager = ExtractEventStatus E event fieldManager) := by
  refine ⟨rfl, rfl, ?_, ?_, ?_⟩
  · unfold ExtractEvent
    rw [extractEvent_run]
  · unfold ExtractEventStatus
    rw [extractEvent_run]
  · intro h
    unfold ExtractEvent ExtractEventStatus
    rw [extractEvent_run, extractEvent_run, h]

theorem ExtractEvent_ExtractEventStatus_subresource_witness :
    sampleEngine { Name := "my-event", Namespace := "default", ManagedFields := ["kubectl"] }
        "io.k8s.api.events.v1beta1.Event" "stranger" {} "" =
      sampleEngine { Name := "my-event", Namespace := "default", ManagedFields := ["kubectl"] }
        "io.k8s.api.events.v1beta1.Event" "stranger" {} "status" ∧
    ExtractEvent sampleEngine
        { Name := "my-event", Namespace := "default", ManagedFields := ["kubectl"] }
        "stranger" =
      ExtractEventStatus sampleEngine
        { Name := "my-event", Namespace := "default", ManagedFields := ["kubectl"] }
        "stranger" :=
  ⟨by decide, (ExtractEvent_ExtractEventStatus_subresource sampleEngine
    { Name := "my-event", Namespace := "default", ManagedFields := ["kubectl"] }
    "stranger").2.2.2.2 (by decide)⟩

/-- C15. Read accessors have no side effect beyond the lazy creation of the metadata
sub-object: `GetKind` and `GetAPIVersion` leave the builder as it is; `GetName` and
`GetNamespace` leave every field as it is, except that an absent metadata sub-object becomes
an existing one with all its fields unset; an existing metadata sub-object is left as it
is. -/
theorem getters_frame (b : EventApplyConfiguration) :
    (∃ r, GetKind b = .ok r b) ∧ (∃ r, GetAPIVersion b = .ok r b) ∧
    (∃ r, GetName b = .ok r
      (match b.ObjectMetaApplyConfiguration with
       | some _ => b
       | none => { b with ObjectMetaApplyConfiguration := some {} })) ∧
    (∃ r, GetNamespace b = .ok r
      (match b.ObjectMetaApplyConfiguration with
       | some _ => b
       | none => { b with ObjectMetaApplyConfiguration := some {} })) := by
  refine ⟨?_, ?_, ?_, ?_⟩
  · exact ⟨_, rfl⟩
  · exact ⟨_, rfl⟩
  · exact ⟨_, by rw [GetName_run, setMeta_metaOrEmpty]; rfl⟩
  · exact ⟨_, by rw [GetNamespace_run, setMeta_metaOrEmpty]; rfl⟩

/-- C17. Each type-specific mutator changes only its own field: for every builder and
argument, each of the fourteen mutators returns, and putting the old value of its field back
gives the builder as it was, so the type meta, the metadata sub-object (its absence
included) and all other type-specific fields are as they were. -/
theorem type_specific_mutators_frame (b : EventApplyConfiguration) :
    (∀ v : MicroTime, ∃ b', WithEventTime v b = .ok () b' ∧ { b' with EventTime := b.EventTime } = b) ∧
    (∀ v : Option EventSeriesApplyConfiguration, ∃ b', WithSeries v b = .ok () b' ∧ { b' with Series := b.Series } = b) ∧
    (∀ v : String, ∃ b', WithReportingController v b = .ok () b' ∧ { b' with ReportingController := b.ReportingController } = b) ∧
    (∀ v : String, ∃ b', WithReportingInstance v b = .ok () b' ∧ { b' with ReportingInstance := b.ReportingInstance } = b) ∧
    (∀ v : String, ∃ b', WithAction v b = .ok () b' ∧ { b' with Action := b.Action } = b) ∧
    (∀ v : String, ∃ b', WithReason v b = .ok () b' ∧ { b' with Reason := b.Reason } = b) ∧
    (∀ v : Option ObjectReferenceApplyConfiguration, ∃ b', WithRegarding v b = .ok () b' ∧ { b' with Regarding := b.Regarding } = b) ∧
    (∀ v : Option ObjectReferenceApplyConfiguration, ∃ b', WithRelated v b = .ok () b' ∧ { b' with Related := b.Related } = b) ∧
    (∀ v : String, ∃ b', WithNote v b = .ok () b' ∧ { b' with Note := b.Note } = b) ∧
    (∀ v : String, ∃ b', WithType v b = .ok () b' ∧ { b' with Type_ := b.Type_ } = b) ∧
    (∀ v : Option EventSourceApplyConfiguration, ∃ b', WithDeprecatedSource v b = .ok () b' ∧ { b' with DeprecatedSource := b.DeprecatedSource } = b) ∧
    (∀ v : Time, ∃ b', WithDeprecatedFirstTimestamp v b = .ok () b' ∧ { b' with DeprecatedFirstTimestamp := b.DeprecatedFirstTimestamp } = b) ∧
    (∀ v : Time, ∃ b', WithDeprecatedLastTimestamp v b = .ok () b' ∧ { b' with DeprecatedLastTimestamp := b.DeprecatedLastTimestamp } = b) ∧
    (∀ v : Int, ∃ b', WithDeprecatedCount v b = .ok () b' ∧ { b' with DeprecatedCount := b.DeprecatedCount } = b) := by
  refine ⟨?_, ?_, ?_, ?_, ?_, ?_, ?_, ?_, ?_, ?_, ?_, ?_, ?_, ?_⟩ <;> exact fun v => ⟨_, rfl, rfl⟩

/-- C18. An empty batch never turns an unset collection field into a set one: for every
builder, `WithLabels` and `WithAnnotations` with a nil or an empty map, and `WithFinalizers`
and `WithOwnerReferences` with no arguments, return; the only change of state is the lazy
creation of the metadata sub-object, and the collection field is what it was, so nil if it
was nil. -/
theorem empty_batch_keeps_unset (b : EventApplyConfiguration) :
    WithLabels none b = .ok () (withMetaEnsured b) ∧
    WithLabels (some []) b = .ok () (withMetaEnsured b) ∧
    WithAnnotations none b = .ok () (withMetaEnsured b) ∧
    WithAnnotations (some []) b = .ok () (withMetaEnsured b) ∧
    WithFinalizers [] b = .ok () (withMetaEnsured b) ∧
    WithOwnerReferences [] b = .ok () (withMetaEnsured b) ∧
    labelsOf (withMetaEnsured b) = labelsOf b ∧
    annotationsOf (withMetaEnsured b) = annotationsOf b ∧
    finalizersOf (withMetaEnsured b) = finalizersOf b ∧
    ownerReferencesOf (withMetaEnsured b) = ownerReferencesOf b ∧
    labelsOf (withMetaEnsured {}) = none ∧ annotationsOf (withMetaEnsured {}) = none ∧
    finalizersOf (withMetaEnsured {}) = none ∧ ownerReferencesOf (withMetaEnsured {}) = none := by
  have hL : ∀ entries : Option GoMap, mapRange entries = [] →
      WithLabels entries b = .ok () (withMetaEnsured b) := by
    intro entries he
    rw [WithLabels_run, ← setMeta_metaOrEmpty]
    congr 2
    apply labels_update_self
    cases hl : (metaOrEmpty b).Labels <;> simp [mapMerge, he, assignAll]
  have hA : ∀ entries : Option GoMap, mapRange entries = [] →
      WithAnnotations entries b = .ok () (withMetaEnsured b) := by
    intro entries he
    rw [WithAnnotations_run, ← setMeta_metaOrEmpty]
    congr 2
    apply annotations_update_self
    cases hl : (metaOrEmpty b).Annotations <;> simp [mapMerge, he, assignAll]
  have hview : ∀ {α : Type} (f : ObjectMetaApplyConfiguration → Option α),
      f {} = none →
      (match (withMetaEnsured b).ObjectMetaApplyConfiguration with
        | some m => f m
        | none => none) =
      (match b.ObjectMetaApplyConfiguration with
        | some m => f m
        | none => none) := by
    intro α f hf
    unfold withMetaEnsured
    cases h : b.ObjectMetaApplyConfiguration with
    | none => simp [hf]
    | some m => simp [h]
  refine ⟨hL none rfl, hL (some []) rfl, hA none rfl, hA (some []) rfl, ?_, ?_,
    hview (fun m => m.Labels) rfl, hview (fun m => m.Annotations) rfl,
    hview (fun m => m.Finalizers) rfl, hview (fun m => m.OwnerReferences) rfl,
    rfl, rfl, rfl, rfl⟩
  · rw [WithFinalizers_run, ← setMeta_metaOrEmpty]
    congr 2
  · rw [WithOwnerReferences_run, if_neg (List.not_mem_nil _), ← setMeta_metaOrEmpty]
    congr 2

/-- C20. Single-object mutators store the given reference as it is and never fault: for
every builder, `WithSeries`, `WithRegarding`, `WithRelated` and `WithDeprecatedSource` return
for every argument and leave the field equal to the argument, so unset after a nil argument
even if it was set before and set to exactly the argument otherwise; `WithOwnerReferences`
with a nil argument panics instead. -/
theorem single_object_mutators_store (b : EventApplyConfiguration) :
    (∀ v : Option EventSeriesApplyConfiguration,
      ∃ b', WithSeries v b = .ok () b' ∧ b'.Series = v) ∧
    (∀ v : Option ObjectReferenceApplyConfiguration,
      ∃ b', WithRegarding v b = .ok () b' ∧ b'.Regarding = v) ∧
    (∀ v : Option ObjectReferenceApplyConfiguration,
      ∃ b', WithRelated v b = .ok () b' ∧ b'.Related = v) ∧
    (∀ v : Option EventSourceApplyConfiguration,
      ∃ b', WithDeprecatedSource v b = .ok () b' ∧ b'.DeprecatedSource = v) ∧
    (∃ b', WithSeries none b = .ok () b' ∧ b'.Series = none) ∧
    (∃ b', WithRegarding none b = .ok () b' ∧ b'.Regarding = none) ∧
    (∃ b', WithRelated none b = .ok () b' ∧ b'.Related = none) ∧
    (∃ b', WithDeprecatedSource none b = .ok () b' ∧ b'.DeprecatedSource = none) ∧
    PanicsWith "nil value passed to WithOwnerReferences" (WithOwnerReferences [none] b) := by
  refine ⟨fun v => ⟨_, rfl, rfl⟩, fun v => ⟨_, rfl, rfl⟩, fun v => ⟨_, rfl, rfl⟩,
    fun v => ⟨_, rfl, rfl⟩, ⟨_, rfl, rfl⟩, ⟨_, rfl, rfl⟩, ⟨_, rfl, rfl⟩, ⟨_, rfl, rfl⟩, ?_⟩
  exact ⟨_, by rw [WithOwnerReferences_run, if_pos (List.mem_singleton.2 rfl)]⟩

/-- C13. Every metadata mutator, applied to any builder, completes without a fault for a
missing metadata sub-object (the only panic is that of `WithOwnerReferences` on a nil
argument) and leaves a metadata sub-object that exists; nothing outside the sub-object
changes, and in the sub-object only the field of the mutator changes: the other fields are
those of the sub-object that existed, or unset if there was none. -/
theorem metadata_mutators_lazy_init (b : EventApplyConfiguration) :
    (∀ v : String, ∃ b' m', WithName v b = .ok () b' ∧
      b'.ObjectMetaApplyConfiguration = some m' ∧
      { b' with ObjectMetaApplyConfiguration := b.ObjectMetaApplyConfiguration } = b ∧
      { m' with Name := (metaOrEmpty b).Name } = metaOrEmpty b) ∧
    (∀ v : String, ∃ b' m', WithGenerateName v b = .ok () b' ∧
      b'.ObjectMetaApplyConfiguration = some m' ∧
      { b' with ObjectMetaApplyConfiguration := b.ObjectMetaApplyConfiguration } = b ∧
      { m' with GenerateName := (metaOrEmpty b).GenerateName } = metaOrEmpty b) ∧
    (∀ v : String, ∃ b' m', WithNamespace v b = .ok () b' ∧
      b'.ObjectMetaApplyConfiguration = some m' ∧
      { b' with ObjectMetaApplyConfiguration := b.ObjectMetaApplyConfiguration } = b ∧
      { m' with Namespace := (metaOrEmpty b).Namespace } = metaOrEmpty b) ∧
    (∀ v : String, ∃ b' m', WithUID v b = .ok () b' ∧
      b'.ObjectMetaApplyConfiguration = some m' ∧
      { b' with ObjectMetaApplyConfiguration := b.ObjectMetaApplyConfiguration } = b ∧
      { m' with UID := (metaOrEmpty b).UID } = metaOrEmpty b) ∧
    (∀ v : String, ∃ b' m', WithResourceVersion v b = .ok () b' ∧
      b'.ObjectMetaApplyConfiguration = some m' ∧
      { b' with ObjectMetaApplyConfiguration := b.ObjectMetaApplyConfiguration } = b ∧
      { m' with ResourceVersion := (metaOrEmpty b).ResourceVersion } = metaOrEmpty b) ∧
    (∀ v : Int, ∃ b' m', WithGeneration v b = .ok () b' ∧
      b'.ObjectMetaApplyConfiguration = some m' ∧
      { b' with ObjectMetaApplyConfiguration := b.ObjectMetaApplyConfiguration } = b ∧
      { m' with Generation := (metaOrEmpty b).Generation } = metaOrEmpty b) ∧
    (∀ v : Time, ∃ b' m', WithCreationTimestamp v b = .ok () b' ∧
      b'.ObjectMetaApplyConfiguration = some m' ∧
      { b' with ObjectMetaApplyConfiguration := b.ObjectMetaApplyConfiguration } = b ∧
      { m' with CreationTimestamp := (metaOrEmpty b).CreationTimestamp } = metaOrEmpty b) ∧
    (∀ v : Time, ∃ b' m', WithDeletionTimestamp v b = .ok () b' ∧
      b'.ObjectMetaApplyConfiguration = some m' ∧
      { b' with ObjectMetaApplyConfiguration := b.ObjectMetaApplyConfiguration } = b ∧
      { m' with DeletionTimestamp := (metaOrEmpty b).DeletionTimestamp } = metaOrEmpty b) ∧
    (∀ v : Int, ∃ b' m', WithDeletionGracePeriodSeconds v b = .ok () b' ∧
      b'.ObjectMetaApplyConfiguration = some m' ∧
      { b' with ObjectMetaApplyConfiguration := b.ObjectMetaApplyConfiguration } = b ∧
      { m' with DeletionGracePeriodSeconds := (metaOrEmpty b).DeletionGracePeriodSeconds } = metaOrEmpty b) ∧
    (∀ v : Option GoMap, ∃ b' m', WithLabels v b = .ok () b' ∧
      b'.ObjectMetaApplyConfiguration = some m' ∧
      { b' with ObjectMetaApplyConfiguration := b.ObjectMetaApplyConfiguration } = b ∧
      { m' with Labels := (metaOrEmpty b).Labels } = metaOrEmpty b) ∧
    (∀ v : Option GoMap, ∃ b' m', WithAnnotations v b = .ok () b' ∧
      b'.ObjectMetaApplyConfiguration = some m' ∧
      { b' with ObjectMetaApplyConfiguration := b.ObjectMetaApplyConfiguration } = b ∧
      { m' with Annotations := (metaOrEmpty b).Annotations } = metaOrEmpty b) ∧
    (∀ v : List String, ∃ b' m', WithFinalizers v b = .ok () b' ∧
      b'.ObjectMetaApplyConfiguration = some m' ∧
      { b' with ObjectMetaApplyConfiguration := b.ObjectMetaApplyConfiguration } = b ∧
      { m' with Finalizers := (metaOrEmpty b).Finalizers } = metaOrEmpty b) ∧
    (∀ values : List (Option OwnerReferenceApplyConfiguration), ∃ b' m',
      (WithOwnerReferences values b = .ok () b' ∨
        WithOwnerReferences values b = .error "nil value passed to WithOwnerReferences" b') ∧
      b'.ObjectMetaApplyConfiguration = some m' ∧
      { b' with ObjectMetaApplyConfiguration := b.ObjectMetaApplyConfiguration } = b ∧
      { m' with OwnerReferences := (metaOrEmpty b).OwnerReferences } = metaOrEmpty b) := by
  refine ⟨?_, ?_, ?_, ?_, ?_, ?_, ?_, ?_, ?_, ?_, ?_, ?_, ?_⟩
  · exact fun v => ⟨_, _, WithName_run v b, rfl, rfl, rfl⟩
  · exact fun v => ⟨_, _, WithGenerateName_run v b, rfl, rfl, rfl⟩
  · exact fun v => ⟨_, _, WithNamespace_run v b, rfl, rfl, rfl⟩
  · exact fun v => ⟨_, _, WithUID_run v b, rfl, rfl, rfl⟩
  · exact fun v => ⟨_, _, WithResourceVersion_run v b, rfl, rfl, rfl⟩
  · exact fun v => ⟨_, _, WithGeneration_run v b, rfl, rfl, rfl⟩
  · exact fun v => ⟨_, _, WithCreationTimestamp_run v b, rfl, rfl, rfl⟩
  · exact fun v => ⟨_, _, WithDeletionTimestamp_run v b, rfl, rfl, rfl⟩
  · exact fun v => ⟨_, _, WithDeletionGracePeriodSeconds_run v b, rfl, rfl, rfl⟩
  · exact fun v => ⟨_, _, WithLabels_run v b, rfl, rfl, rfl⟩
  · exact fun v => ⟨_, _, WithAnnotations_run v b, rfl, rfl, rfl⟩
  · exact fun v => ⟨_, _, WithFinalizers_run v b, rfl, rfl, rfl⟩
  · intro values
    by_cases h : none ∈ values
    · have hr := WithOwnerReferences_run values b
      rw [if_pos h] at hr
      exact ⟨_, _, Or.inr hr, rfl, rfl, rfl⟩
    · have hr := WithOwnerReferences_run values b
      rw [if_neg h] at hr
      exact ⟨_, _, Or.inl hr, rfl, rfl, rfl⟩

/-- C16. On success, `extractEvent` changes only the four identity fields of what the
ownership engine populated: when the engine reports no error and leaves the target in state
`b0`, the returned builder has Kind, APIVersion, Name and Namespace overwritten and agrees
with `b0` on every type-specific field and on every metadata field other than Name and
Namespace. -/
theorem extractEvent_frame (E : Engine) (event : eventsv1beta1.Event)
    (fieldManager subresource : String) (b0 : EventApplyConfiguration)
    (h : E event "io.k8s.api.events.v1beta1.Event" fieldManager {} subresource = (none, b0)) :
    ∃ b m, extractEvent E event fieldManager subresource = .ok (some b, none) ∧
      b.ObjectMetaApplyConfiguration = some m ∧
      { b with
        TypeMetaApplyConfiguration := b0.TypeMetaApplyConfiguration,
        ObjectMetaApplyConfiguration := b0.ObjectMetaApplyConfiguration } = b0 ∧
      { m with Name := (metaOrEmpty b0).Name, Namespace := (metaOrEmpty b0).Namespace } =
        metaOrEmpty b0 ∧
      b.TypeMetaApplyConfiguration =
        { Kind := some "Event", APIVersion := some "events.k8s.io/v1beta1" } ∧
      m.Name = some event.Name ∧ m.Namespace = some event.Namespace := by
  refine ⟨withIdentity event b0, _, ?_, rfl, rfl, rfl, rfl, rfl, rfl⟩
  rw [extractEvent_run, h]

theorem extractEvent_frame_witness :
    sampleEngine { Name := "my-event", Namespace := "default", ManagedFields := ["kubectl"] }
        "io.k8s.api.events.v1beta1.Event" "kubectl" {} "" =
      (none,
        { TypeMetaApplyConfiguration := { Kind := some "Pod", APIVersion := some "v1" },
          ObjectMetaApplyConfiguration :=
            some { Name := some "other", Labels := some [("app", "web")] },
          Reason := some "Started" }) ∧
    ∃ b m, extractEvent sampleEngine
        { Name := "my-event", Namespace := "default", ManagedFields := ["kubectl"] }
        "kubectl" "" = .ok (some b, none) ∧
      b.ObjectMetaApplyConfiguration = some m ∧
      b.Reason = some "Started" ∧ m.Labels = some [("app", "web")] ∧
      b.TypeMetaApplyConfiguration =
        { Kind := some "Event", APIVersion := some "events.k8s.io/v1beta1" } ∧
      m.Name = some "my-event" ∧ m.Namespace = some "default" := by
  have h : sampleEngine
      { Name := "my-event", Namespace := "default", ManagedFields := ["kubectl"] }
      "io.k8s.api.events.v1beta1.Event" "kubectl" {} "" =
      (none,
        { TypeMetaApplyConfiguration := { Kind := some "Pod", APIVersion := some "v1" },
          ObjectMetaApplyConfiguration :=
            some { Name := some "other", Labels := some [("app", "web")] },
          Reason := some "Started" }) := by
    simp [sampleEngine]
  obtain ⟨b, m, hrun, hm, hb, hmeta, hid, hn, hns⟩ := extractEvent_frame sampleEngine
    { Name := "my-event", Namespace := "default", ManagedFields := ["kubectl"] }
    "kubectl" "" _ h
  refine ⟨h, b, m, hrun, hm, ?_, ?_, hid, hn, hns⟩
  · have := congrArg EventApplyConfiguration.Reason hb
    simpa using this
  · have := congrArg ObjectMetaApplyConfiguration.Labels hmeta
    simpa [metaOrEmpty] using this

theorem Call.run_of_nilFree (c : Call) (h : c.NilFree) (b : EventApplyConfiguration) :
    c.run b = .ok () (c.effect b) := by
  cases c with
  | ownerReferences values =>
    show WithOwnerReferences values b = _
    rw [WithOwnerReferences_run, if_neg h]
    rfl
  | kind value => rfl
  | apiVersion value => rfl
  | name value => exact WithName_run value b
  | generateName value => exact WithGenerateName_run value b
  | namespace_ value => exact WithNamespace_run value b
  | uid value => exact WithUID_run value b
  | resourceVersion value => exact WithResourceVersion_run value b
  | generation value => exact WithGeneration_run value b
  | creationTimestamp value => exact WithCreationTimestamp_run value b
  | deletionTimestamp value => exact WithDeletionTimestamp_run value b
  | deletionGracePeriodSeconds value => exact WithDeletionGracePeriodSeconds_run value b
  | labels value => exact WithLabels_run value b
  | annotations value => exact WithAnnotations_run value b
  | finalizers value => exact WithFinalizers_run value b
  | eventTime value => rfl
  | series value => rfl
  | reportingController value => rfl
  | reportingInstance value => rfl
  | action value => rfl
  | reason value => rfl
  | regarding value => rfl
  | related value => rfl
  | note value => rfl
  | type_ value => rfl
  | deprecatedSource value => rfl
  | deprecatedFirstTimestamp value => rfl
  | deprecatedLastTimestamp value => rfl
  | deprecatedCount value => rfl

theorem Call.run_of_not_nilFree (c : Call) (h : ¬ c.NilFree) (b : EventApplyConfiguration) :
    c.run b = .error "nil value passed to WithOwnerReferences" (c.effect b) := by
  cases c with
  | ownerReferences values =>
    have hm : none ∈ values := by
      by_contra hn
      exact h hn
    show WithOwnerReferences values b = _
    rw [WithOwnerReferences_run, if_pos hm]
    rfl
  | kind value => exact absurd trivial h
  | apiVersion value => exact absurd trivial h
  | name value => exact absurd trivial h
  | generateName value => exact absurd trivial h
  | namespace_ value => exact absurd trivial h
  | uid value => exact absurd trivial h
  | resourceVersion value => exact absurd trivial h
  | generation value => exact absurd trivial h
  | creationTimestamp value => exact absurd trivial h
  | deletionTimestamp value => exact absurd trivial h
  | deletionGracePeriodSeconds value => exact absurd trivial h
  | labels value => exact absurd trivial h
  | annotations value => exact absurd trivial h
  | finalizers value => exact absurd trivial h
  | eventTime value => exact absurd trivial h
  | series value => exact absurd trivial h
  | reportingController value => exact absurd trivial h
  | reportingInstance value => exact absurd trivial h
  | action value => exact absurd trivial h
  | reason value => exact absurd trivial h
  | regarding value => exact absurd trivial h
  | related value => exact absurd trivial h
  | note value => exact absurd trivial h
  | type_ value => exact absurd trivial h
  | deprecatedSource value => exact absurd trivial h
  | deprecatedFirstTimestamp value => exact absurd trivial h
  | deprecatedLastTimestamp value => exact absurd trivial h
  | deprecatedCount value => exact absurd trivial h

theorem Call.effect_comm (c1 c2 : Call) (h : c1.field ≠ c2.field)
    (b : EventApplyConfiguration) :
    c2.effect (c1.effect b) = c1.effect (c2.effect b) := by
  cases c1 <;> cases c2 <;> first | exact absurd rfl h | rfl

/-- C19, as stated, fails: `WithOwnerReferences(nil)` and `WithReason("r")` target different
fields, yet on the zero builder the two orders leave different states, since the panic on
the nil reference comes before `WithReason` ran in one order and after it in the other. -/
theorem mutators_commute_fails_on_nil_reference :
    (WithOwnerReferences [none] >>= fun _ => WithReason "r") {} =
      .error "nil value passed to WithOwnerReferences"
        { ObjectMetaApplyConfiguration := some {} } ∧
    (WithReason "r" >>= fun _ => WithOwnerReferences [none]) {} =
      .error "nil value passed to WithOwnerReferences"
        { ObjectMetaApplyConfiguration := some {}, Reason := some "r" } ∧
    (WithOwnerReferences [none] >>= fun _ => WithReason "r") {} ≠
      (WithReason "r" >>= fun _ => WithOwnerReferences [none]) {} := by
  have h1 : (WithOwnerReferences [none] >>= fun _ => WithReason "r") {} =
      .error "nil value passed to WithOwnerReferences"
        { ObjectMetaApplyConfiguration := some {} } := rfl
  have h2 : (WithReason "r" >>= fun _ => WithOwnerReferences [none]) {} =
      .error "nil value passed to WithOwnerReferences"
        { ObjectMetaApplyConfiguration := some {}, Reason := some "r" } := rfl
  refine ⟨h1, h2, ?_⟩
  rw [h1, h2]
  simp

/-- C19, amended. Mutator calls on distinct fields commute when they return: for every
builder and any two mutator calls that target different fields and pass no nil owner
reference, both orders return and yield the same builder state; when one of the two is
`WithOwnerReferences` with a nil entry, both orders panic with its message. -/
theorem mutators_commute (b : EventApplyConfiguration) (c1 c2 : Call)
    (h : c1.field ≠ c2.field) :
    (c1.NilFree → c2.NilFree →
      ∃ b', (c1.run >>= fun _ => c2.run) b = .ok () b' ∧
        (c2.run >>= fun _ => c1.run) b = .ok () b') ∧
    (¬ (c1.NilFree ∧ c2.NilFree) →
      PanicsWith "nil value passed to WithOwnerReferences" ((c1.run >>= fun _ => c2.run) b) ∧
      PanicsWith "nil value passed to WithOwnerReferences"
        ((c2.run >>= fun _ => c1.run) b)) := by
  constructor
  · intro h1 h2
    refine ⟨c2.effect (c1.effect b), ?_, ?_⟩
    · rw [bind_run, Call.run_of_nilFree c1 h1]
      exact Call.run_of_nilFree c2 h2 _
    · rw [bind_run, Call.run_of_nilFree c2 h2, Call.effect_comm c1 c2 h]
      exact Call.run_of_nilFree c1 h1 _
  · intro hn
    by_cases h1 : c1.NilFree
    · have h2 : ¬ c2.NilFree := fun h2 => hn ⟨h1, h2⟩
      constructor
      · refine ⟨c2.effect (c1.effect b), ?_⟩
        rw [bind_run, Call.run_of_nilFree c1 h1]
        exact Call.run_of_not_nilFree c2 h2 _
      · refine ⟨c2.effect b, ?_⟩
        rw [bind_run, Call.run_of_not_nilFree c2 h2]
    · by_cases h2 : c2.NilFree
      · constructor
        · refine ⟨c1.effect b, ?_⟩
          rw [bind_run, Call.run_of_not_nilFree c1 h1]
        · refine ⟨c1.effect (c2.effect b), ?_⟩
          rw [bind_run, Call.run_of_nilFree c2 h2]
          exact Call.run_of_not_nilFree c1 h1 _
      · constructor
        · refine ⟨c1.effect b, ?_⟩
          rw [bind_run, Call.run_of_not_nilFree c1 h1]
        · refine ⟨c2.effect b, ?_⟩
          rw [bind_run, Call.run_of_not_nilFree c2 h2]

theorem mutators_commute_witness :
    Call.field (.name "n") ≠ Call.field (.labels (some [("a", "1")])) ∧
    ∃ b', (WithName "n" >>= fun _ => WithLabels (some [("a", "1")])) {} = .ok () b' ∧
      (WithLabels (some [("a", "1")]) >>= fun _ => WithName "n") {} = .ok () b' :=
  ⟨by decide, (mutators_commute {} (.name "n") (.labels (some [("a", "1")]))
    (by decide)).1 trivial trivial⟩

end EventV1beta1
